import Mathlib

/-!
# Double-buffered batch offload pipeline (`CudaStream`)

A shallow embedding of `src/include/cuda_stream.h`.  The host side of the class is
translated field by field and statement by statement; every call that leaves the
host (stream synchronisation, asynchronous copies, the kernel launch, the merge
of a delta sketch into the sketching algorithm) is recorded as an `Event`, in
program order.  The cumulative timing counters of the class are wall-clock
measurements and are left out.

Fields and constructor arguments (`size_t`, `vec_t`, `int`) are natural numbers: the
class only ever adds to them or multiplies them by the constructor arguments, and
they are assumed to stay inside their machine types.  The machine width is modelled
in two places.  The global sketch index is computed in `node_id_t` arithmetic, with
an explicit reduction modulo `2 ^ node_bits`.  The flush functions keep
`num_batches_left`, `start_index` and `start_batch_id` in `int` locals, while
`process_batch` keeps `start_index` in a `size_t`; the locals of the flush functions
are modelled as 32-bit two's-complement values (`to_int`), and `ints_fit` says when
they hold the values they are assigned.

Host arrays are total maps `Nat → Nat` (a flat memory); the constructor sets every
allocated cell to zero.

The kernel and the sketch table are declared outside `cuda_stream.h`.  Statements
about what the kernel receives read the device arrays as the launch arguments
describe them (`DeviceArrays`); statements about the content of the sketch table use
a model of kernel and merger written from the specification (`Device`).
-/

namespace CudaStream

/-- Constructor arguments and the fields of `SketchParams` the class reads.
`node_bits` is the width of `node_id_t`, whose declaration lies outside
`cuda_stream.h` (32 or 64 in practice). -/
structure Config where
  graph_id : Int
  num_nodes : Nat
  num_device_threads : Nat
  num_batch_per_buffer : Nat
  batch_size : Nat
  num_buckets : Nat
  cudaUVM_enabled : Bool
  node_bits : Nat

/-- The mutable host fields of a `CudaStream` instance. -/
structure State where
  buffer_id : Nat
  batch_offset : Nat
  batch_count : Nat
  first_buffer : Bool
  h_edgeUpdates : Nat → Nat
  h_update_sizes : Nat → Nat
  h_update_src : Nat → Nat
  h_update_start_index : Nat → Nat

/-- Calls that leave the host, with their arguments.

* `synchronize`: `cudaStreamSynchronize(stream)`;
* `apply_raw_buckets_update index off`:
  `sketching_alg->apply_raw_buckets_update(index, &h_buckets[off])`;
* `copy_edgeUpdates start len data`: host-to-device copy of `len` elements of
  `h_edgeUpdates` beginning at `start`; `data` is the content of that range when
  the copy is issued;
* `copy_update_sizes`, `copy_update_src`, `copy_update_start_index`: likewise for
  the three metadata arrays;
* `sketchUpdate threads batches`: the kernel launch;
* `copy_buckets_back n`: device-to-host copy of `n` buckets into `h_buckets`. -/
inductive Event where
  | synchronize
  | apply_raw_buckets_update (index : Nat) (off : Nat)
  | copy_edgeUpdates (start len : Nat) (data : List Nat)
  | copy_update_sizes (start len : Nat) (data : List Nat)
  | copy_update_src (start len : Nat) (data : List Nat)
  | copy_update_start_index (start len : Nat) (data : List Nat)
  | sketchUpdate (threads batches : Nat)
  | copy_buckets_back (n : Nat)
  deriving DecidableEq

/-- `batch_limit = num_batch_per_buffer` (last statement of the constructor). -/
def batch_limit (cfg : Config) : Nat := cfg.num_batch_per_buffer

/-- Field initialisers and the zeroing loops of the constructor. -/
def construct : State :=
  { buffer_id := 0, batch_offset := 0, batch_count := 0, first_buffer := true,
    h_edgeUpdates := fun _ => 0, h_update_sizes := fun _ => 0,
    h_update_src := fun _ => 0, h_update_start_index := fun _ => 0 }

/-- `(graph_id * num_nodes) + src` evaluated in `node_id_t` arithmetic: the `int`
`graph_id` is converted to the unsigned type, and product and sum wrap modulo
`2 ^ node_bits`. -/
def global_index (cfg : Config) (src : Nat) : Nat :=
  (((cfg.graph_id % (2 : Int) ^ cfg.node_bits).toNat * cfg.num_nodes) % 2 ^ cfg.node_bits + src)
    % 2 ^ cfg.node_bits

/-- The fill loop `for (i = batch_offset; i < batch_offset + size; i++)
h_edgeUpdates[i] = dst_vertices[count++]`, started at index `i`. -/
def fill_edges (h : Nat → Nat) (i : Nat) : List Nat → Nat → Nat
  | [] => h
  | d :: ds => fill_edges (Function.update h i d) (i + 1) ds

/-- The indices the fill loop assigns, in order. -/
def edge_write_indices (s : State) (count : Nat) : List Nat :=
  List.range' s.batch_offset count

/-- The metadata slot `start_batch_id + batch_count` the call assigns. -/
def meta_write_index (cfg : Config) (s : State) : Nat :=
  s.buffer_id * cfg.num_batch_per_buffer + s.batch_count

/-- `start_index = buffer_id * num_batch_per_buffer * batch_size`. -/
def start_index (cfg : Config) (s : State) : Nat :=
  s.buffer_id * cfg.num_batch_per_buffer * cfg.batch_size

/-- `start_batch_id = buffer_id * num_batch_per_buffer`. -/
def start_batch_id (cfg : Config) (s : State) : Nat :=
  s.buffer_id * cfg.num_batch_per_buffer

/-- The statements shared verbatim by `process_batch_UVM` and
`process_batch_default` up to and including `batch_count++`. -/
def append_batch (cfg : Config) (s : State) (src_vertex : Nat) (dst_vertices : List Nat) :
    State :=
  { s with
    h_edgeUpdates := fill_edges s.h_edgeUpdates s.batch_offset dst_vertices
    h_update_sizes :=
      Function.update s.h_update_sizes (start_batch_id cfg s + s.batch_count) dst_vertices.length
    h_update_src :=
      Function.update s.h_update_src (start_batch_id cfg s + s.batch_count) src_vertex
    h_update_start_index :=
      Function.update s.h_update_start_index (start_batch_id cfg s + s.batch_count)
        (s.batch_offset - start_index cfg s)
    batch_offset := s.batch_offset + dst_vertices.length
    batch_count := s.batch_count + 1 }

/-- The cells `h[start], …, h[start + len - 1]`. -/
def slice (h : Nat → Nat) (start len : Nat) : List Nat :=
  (List.range len).map (fun i => h (start + i))

/-- The four `cudaMemcpyAsync` host-to-device calls for the filling half, with
`n` metadata slots. -/
def transfer_buffers (cfg : Config) (s : State) (n : Nat) : List Event :=
  [ Event.copy_edgeUpdates (start_index cfg s) (s.batch_offset - start_index cfg s)
      (slice s.h_edgeUpdates (start_index cfg s) (s.batch_offset - start_index cfg s)),
    Event.copy_update_sizes (start_batch_id cfg s) n (slice s.h_update_sizes (start_batch_id cfg s) n),
    Event.copy_update_src (start_batch_id cfg s) n (slice s.h_update_src (start_batch_id cfg s) n),
    Event.copy_update_start_index (start_batch_id cfg s) n
      (slice s.h_update_start_index (start_batch_id cfg s) n) ]

/-- The loop `for (batch_id = 0; batch_id < n; batch_id++)` that merges the delta
of each slot into the sketch of the slot's source; `first` is the index of the
half's first metadata slot. -/
def apply_delta_loop (cfg : Config) (s : State) (first n : Nat) : List Event :=
  (List.range n).map (fun batch_id =>
    Event.apply_raw_buckets_update (global_index cfg (s.h_update_src (first + batch_id)))
      (batch_id * cfg.num_buckets))

/-- The block "Reset variables" of `process_batch_UVM`. -/
def reset_UVM (cfg : Config) (s : State) : State :=
  { s with
    batch_count := 0
    buffer_id := s.buffer_id ^^^ 1
    batch_offset := (s.buffer_id ^^^ 1) * cfg.num_batch_per_buffer * cfg.batch_size }

/-- The block "Reset variables" of `process_batch_default`. -/
def reset_default (cfg : Config) (s : State) : State :=
  { s with
    batch_count := 0
    buffer_id := s.buffer_id ^^^ 1
    batch_offset := (s.buffer_id ^^^ 1) * cfg.num_batch_per_buffer * cfg.batch_size
    first_buffer := false }

/-- Events of the `if (batch_count == batch_limit)` block of `process_batch_UVM`,
from the state reached after `batch_count++`. -/
def swap_events_UVM (cfg : Config) (s : State) : List Event :=
  [Event.synchronize] ++ transfer_buffers cfg s s.batch_count
    ++ [Event.sketchUpdate cfg.num_device_threads s.batch_count]

/-- Events of the `if (batch_count == batch_limit)` block of
`process_batch_default`, from the state reached after `batch_count++`. -/
def swap_events_default (cfg : Config) (s : State) : List Event :=
  [Event.synchronize]
    ++ (if s.first_buffer then []
        else apply_delta_loop cfg s ((s.buffer_id ^^^ 1) * cfg.num_batch_per_buffer)
          (batch_limit cfg))
    ++ transfer_buffers cfg s s.batch_count
    ++ [Event.sketchUpdate cfg.num_device_threads s.batch_count,
        Event.copy_buckets_back (cfg.num_buckets * cfg.num_batch_per_buffer)]

/-- `CudaStream::process_batch_UVM`. -/
def process_batch_UVM (cfg : Config) (s : State) (src_vertex : Nat) (dst_vertices : List Nat) :
    State × List Event :=
  let s1 := append_batch cfg s src_vertex dst_vertices
  if s1.batch_count = batch_limit cfg then
    (reset_UVM cfg s1, swap_events_UVM cfg s1)
  else
    (s1, [])

/-- `CudaStream::process_batch_default`. -/
def process_batch_default (cfg : Config) (s : State) (src_vertex : Nat)
    (dst_vertices : List Nat) : State × List Event :=
  let s1 := append_batch cfg s src_vertex dst_vertices
  if s1.batch_count = batch_limit cfg then
    (reset_default cfg s1, swap_events_default cfg s1)
  else
    (s1, [])

/-- `CudaStream::process_batch`. -/
def process_batch (cfg : Config) (s : State) (src_vertex : Nat) (dst_vertices : List Nat) :
    State × List Event :=
  if cfg.cudaUVM_enabled then process_batch_UVM cfg s src_vertex dst_vertices
  else process_batch_default cfg s src_vertex dst_vertices

/-- A value stored in a C++ `int`: its low 32 bits read as two's complement. -/
def to_int (n : Nat) : Int := ((n : Int) + 2 ^ 31) % 2 ^ 32 - 2 ^ 31

/-- An `int` used as a `size_t` (an operand of `size_t` arithmetic, an array index, a
count): its 64-bit two's-complement value.  A negative `int` becomes a value of
`2 ^ 63` or more; an index or a count of that size lies outside every array. -/
def to_size_t (i : Int) : Nat := (i % 2 ^ 64).toNat

/-- `int num_batches_left = batch_count` of the flush functions. -/
def num_batches_left (s : State) : Int := to_int s.batch_count

/-- `int start_index = buffer_id * num_batch_per_buffer * batch_size` of the flush
functions. -/
def flush_start_index (cfg : Config) (s : State) : Int :=
  to_int (s.buffer_id * cfg.num_batch_per_buffer * cfg.batch_size)

/-- `int start_batch_id = buffer_id * num_batch_per_buffer` of the flush functions. -/
def flush_start_batch_id (cfg : Config) (s : State) : Int :=
  to_int (s.buffer_id * cfg.num_batch_per_buffer)

/-- `batch_offset - start_index` of the flush functions, a `size_t` difference with
the `int` converted to `size_t`. -/
def flush_copy_length (cfg : Config) (s : State) : Nat :=
  (s.batch_offset + 2 ^ 64 - to_size_t (flush_start_index cfg s)) % 2 ^ 64

/-- The four `cudaMemcpyAsync` host-to-device calls of the flush functions, with
their `int` locals. -/
def flush_transfer_buffers (cfg : Config) (s : State) : List Event :=
  [ Event.copy_edgeUpdates (to_size_t (flush_start_index cfg s)) (flush_copy_length cfg s)
      (slice s.h_edgeUpdates (to_size_t (flush_start_index cfg s)) (flush_copy_length cfg s)),
    Event.copy_update_sizes (to_size_t (flush_start_batch_id cfg s))
      (to_size_t (num_batches_left s))
      (slice s.h_update_sizes (to_size_t (flush_start_batch_id cfg s))
        (to_size_t (num_batches_left s))),
    Event.copy_update_src (to_size_t (flush_start_batch_id cfg s))
      (to_size_t (num_batches_left s))
      (slice s.h_update_src (to_size_t (flush_start_batch_id cfg s))
        (to_size_t (num_batches_left s))),
    Event.copy_update_start_index (to_size_t (flush_start_batch_id cfg s))
      (to_size_t (num_batches_left s))
      (slice s.h_update_start_index (to_size_t (flush_start_batch_id cfg s))
        (to_size_t (num_batches_left s))) ]

/-- The loop `for (int batch_id = 0; batch_id < num_batches_left; batch_id++)` at the
end of `flush_buffers_default`, reading `h_update_src[start_batch_id + batch_id]`. -/
def flush_delta_loop (cfg : Config) (s : State) : List Event :=
  (List.range (num_batches_left s).toNat).map (fun (batch_id : Nat) =>
    Event.apply_raw_buckets_update
      (global_index cfg
        (s.h_update_src (to_size_t (flush_start_batch_id cfg s + Int.ofNat batch_id))))
      (batch_id * cfg.num_buckets))

/-- `CudaStream::flush_buffers_UVM`. -/
def flush_buffers_UVM (cfg : Config) (s : State) : State × List Event :=
  if s.batch_count = 0 then (s, [])
  else
    (s, flush_transfer_buffers cfg s
          ++ [Event.sketchUpdate cfg.num_device_threads (to_size_t (num_batches_left s))])

/-- `CudaStream::flush_buffers_default`. -/
def flush_buffers_default (cfg : Config) (s : State) : State × List Event :=
  let first_phase :=
    [Event.synchronize]
      ++ apply_delta_loop cfg s ((s.buffer_id ^^^ 1) * cfg.num_batch_per_buffer) (batch_limit cfg)
  if s.batch_count = 0 then (s, first_phase)
  else
    (s, first_phase
          ++ flush_transfer_buffers cfg s
          ++ [Event.sketchUpdate cfg.num_device_threads (to_size_t (num_batches_left s)),
              Event.copy_buckets_back (cfg.num_buckets * to_size_t (num_batches_left s)),
              Event.synchronize]
          ++ flush_delta_loop cfg s)

/-- `CudaStream::flush_buffers`. -/
def flush_buffers (cfg : Config) (s : State) : State × List Event :=
  if cfg.cudaUVM_enabled then flush_buffers_UVM cfg s else flush_buffers_default cfg s

/-- A submitted batch: source vertex and destination list. -/
abbrev Batch := Nat × List Nat

/-- A sequence of `process_batch` calls from state `s`: final state and the
concatenated events. -/
def run_from (cfg : Config) (s : State) : List Batch → State × List Event
  | [] => (s, [])
  | b :: bs =>
    let r := process_batch cfg s b.1 b.2
    let t := run_from cfg r.1 bs
    (t.1, r.2 ++ t.2)

/-- A sequence of `process_batch` calls on a freshly constructed instance. -/
def run (cfg : Config) (bs : List Batch) : State × List Event :=
  run_from cfg construct bs

/-- A sequence of `process_batch` calls on a fresh instance followed by one
`flush_buffers`: the whole event trace. -/
def stream_trace (cfg : Config) (bs : List Batch) : List Event :=
  (run cfg bs).2 ++ (flush_buffers cfg (run cfg bs).1).2

/-- Staged configuration used in the concrete scenarios. -/
def cfg_staged : Config :=
  { graph_id := 0, num_nodes := 4, num_device_threads := 8, num_batch_per_buffer := 2,
    batch_size := 5, num_buckets := 3, cudaUVM_enabled := false, node_bits := 32 }

/-- Unified-memory configuration used in the concrete scenarios. -/
def cfg_uvm : Config :=
  { graph_id := 0, num_nodes := 4, num_device_threads := 8, num_batch_per_buffer := 2,
    batch_size := 5, num_buckets := 3, cudaUVM_enabled := true, node_bits := 32 }

/-- The staged scenario configuration for another instance, with graph identifier `g`. -/
def cfg_graph (g : Int) : Config :=
  { graph_id := g, num_nodes := 4, num_device_threads := 8, num_batch_per_buffer := 2,
    batch_size := 5, num_buckets := 3, cudaUVM_enabled := false, node_bits := 32 }

/-- A staged configuration over `2 ^ (w - 1)` vertices with a `w`-bit `node_id_t` and
graph identifier `g`. -/
def cfg_large (w : Nat) (g : Int) : Config :=
  { graph_id := g, num_nodes := 2 ^ (w - 1), num_device_threads := 8,
    num_batch_per_buffer := 2, batch_size := 5, num_buckets := 3, cudaUVM_enabled := false,
    node_bits := w }

/-! ### Reading event traces -/

/-- The event is a call of `apply_raw_buckets_update`. -/
def Event.is_merge : Event → Bool
  | .apply_raw_buckets_update _ _ => true
  | _ => false

/-- The event is one of the host-to-device copies. -/
def Event.is_transfer : Event → Bool
  | .copy_edgeUpdates _ _ _ => true
  | .copy_update_sizes _ _ _ => true
  | .copy_update_src _ _ _ => true
  | .copy_update_start_index _ _ _ => true
  | _ => false

/-- The event is a kernel launch. -/
def Event.is_launch : Event → Bool
  | .sketchUpdate _ _ => true
  | _ => false

/-- The event is the device-to-host copy of the delta buckets. -/
def Event.is_copy_back : Event → Bool
  | .copy_buckets_back _ => true
  | _ => false

/-- The event is a stream synchronisation (drain-wait). -/
def Event.is_sync : Event → Bool
  | .synchronize => true
  | _ => false

/-- No merge, no copy in either direction and no kernel launch among the events. -/
def quiet (es : List Event) : Bool :=
  es.all (fun e => !e.is_merge && !e.is_transfer && !e.is_launch && !e.is_copy_back)

/-- Some drain-wait, host-to-device copy or kernel launch among the events. -/
def device_interaction (es : List Event) : Bool :=
  es.any (fun e => e.is_sync || e.is_transfer || e.is_launch)

/-- Bucket offsets of the merges made into the sketch of local vertex `v`, in
trace order. -/
def merges_for (cfg : Config) (v : Nat) (es : List Event) : List Nat :=
  es.filterMap (fun e =>
    match e with
    | .apply_raw_buckets_update i off => if i = global_index cfg v then some off else none
    | _ => none)

/-- The submitted batches whose source is `v`, in submission order. -/
def batches_for (v : Nat) (bs : List Batch) : List Batch :=
  bs.filter (fun b => b.1 = v)

/-- Scans a trace and checks that every host-to-device copy and every kernel
launch comes after a drain-wait that was issued later than the previous kernel
launch.  `drained` tells whether such a drain-wait has been seen. -/
def drained_before_launch : Bool → List Event → Bool
  | _, [] => true
  | drained, e :: es =>
    match e with
    | .synchronize => drained_before_launch true es
    | .sketchUpdate _ _ => drained && drained_before_launch false es
    | .copy_edgeUpdates _ _ _ => drained && drained_before_launch drained es
    | .copy_update_sizes _ _ _ => drained && drained_before_launch drained es
    | .copy_update_src _ _ _ => drained && drained_before_launch drained es
    | .copy_update_start_index _ _ _ => drained && drained_before_launch drained es
    | _ => drained_before_launch drained es

/-- The scanner state reached by `drained_before_launch` after the events. -/
def drained_after : Bool → List Event → Bool
  | drained, [] => drained
  | drained, e :: es =>
    match e with
    | .synchronize => drained_after true es
    | .sketchUpdate _ _ => drained_after false es
    | _ => drained_after drained es

/-- The running offset of the filling half is its base plus the sizes recorded in
its occupied metadata slots. -/
def offset_matches_sizes (cfg : Config) (s : State) : Prop :=
  s.batch_offset = start_index cfg s +
    ((List.range s.batch_count).map (fun j => s.h_update_sizes (start_batch_id cfg s + j))).sum

/-- The filling half is one of the two halves, has a free metadata slot, and its
running offset lies between its base and the base plus `batch_size` elements per
occupied slot. -/
def within_capacity (cfg : Config) (s : State) : Prop :=
  s.buffer_id ≤ 1 ∧ s.batch_count < cfg.num_batch_per_buffer ∧
    start_index cfg s ≤ s.batch_offset ∧
    s.batch_offset ≤ start_index cfg s + s.batch_count * cfg.batch_size

/-! ### Ghost state: what the halves hold -/

/-- The filling half of `s` holds exactly the batches `ch`, in slot order: counters,
metadata slots and update cells agree with `ch`. -/
def half_holds (cfg : Config) (s : State) (ch : List Batch) : Prop :=
  s.batch_count = ch.length ∧
  s.batch_offset = start_index cfg s + (ch.map (fun b => b.2.length)).sum ∧
  ∀ (k : Nat) (x : Batch), ch[k]? = some x →
    s.h_update_src (start_batch_id cfg s + k) = x.1 ∧
    s.h_update_sizes (start_batch_id cfg s + k) = x.2.length ∧
    s.h_update_start_index (start_batch_id cfg s + k) =
      ((ch.take k).map (fun b => b.2.length)).sum ∧
    slice s.h_edgeUpdates
      (start_index cfg s + ((ch.take k).map (fun b => b.2.length)).sum) x.2.length = x.2

/-- The source cells of the other half of `s` hold the sources of the batches `p`. -/
def other_half_sources (cfg : Config) (s : State) (p : List Batch) : Prop :=
  ∀ (k : Nat) (x : Batch), p[k]? = some x →
    s.h_update_src ((s.buffer_id ^^^ 1) * cfg.num_batch_per_buffer + k) = x.1

/-- The batches submitted since the last call that interacted with the device (a
swap), starting from state `s` with `acc` already pending. -/
def pending_from (cfg : Config) (s : State) (acc : List Batch) : List Batch → List Batch
  | [] => acc
  | b :: bs =>
    pending_from cfg (process_batch cfg s b.1 b.2).1
      (if device_interaction (process_batch cfg s b.1 b.2).2 then [] else acc ++ [b]) bs

/-- The batches submitted to a fresh instance since its last swap (or since
construction). -/
def pending (cfg : Config) (bs : List Batch) : List Batch :=
  pending_from cfg construct [] bs

/-! ### The device side of the copies and of the launch -/

/-- The four device arrays the kernel reads. -/
structure DeviceArrays where
  d_edgeUpdates : Nat → Nat
  d_update_sizes : Nat → Nat
  d_update_src : Nat → Nat
  d_update_start_index : Nat → Nat

/-- A host-to-device copy of `data` to the start of a device array. -/
def overwrite (d : Nat → Nat) (data : List Nat) : Nat → Nat :=
  fun i => if i < data.length then data.getD i 0 else d i

/-- Effect of an event on the device arrays: each `cudaMemcpyAsync` host-to-device
call overwrites the start of its destination array; other events leave them. -/
def receive (d : DeviceArrays) : Event → DeviceArrays
  | .copy_edgeUpdates _ _ data => { d with d_edgeUpdates := overwrite d.d_edgeUpdates data }
  | .copy_update_sizes _ _ data => { d with d_update_sizes := overwrite d.d_update_sizes data }
  | .copy_update_src _ _ data => { d with d_update_src := overwrite d.d_update_src data }
  | .copy_update_start_index _ _ data =>
    { d with d_update_start_index := overwrite d.d_update_start_index data }
  | _ => d

/-- The batch in slot `k` as the kernel sees it: source, and the `size` update
elements at the slot's start offset in the transferred update array. -/
def kernel_batch (d : DeviceArrays) (k : Nat) : Batch :=
  (d.d_update_src k, slice d.d_edgeUpdates (d.d_update_start_index k) (d.d_update_sizes k))

/-- Device arrays before any copy. -/
def blank_arrays : DeviceArrays :=
  { d_edgeUpdates := fun _ => 0, d_update_sizes := fun _ => 0, d_update_src := fun _ => 0,
    d_update_start_index := fun _ => 0 }

/-- Modelled from the spec: the kernel `sketchUpdate` and the sketch table with its
`apply_raw_buckets_update` are declared outside `cuda_stream.h`.  Following §4.3 and
§4.4 of the specification, the kernel computes one contribution per batch slot and
either applies it to the sketch of the slot's source (unified mode) or writes it to
the delta slot of that batch (staged mode); the merger applies one delta slot to one
sketch.  Contribution and merge stay uninterpreted: a contribution is named by the
batch it was computed from (`none` is a delta slot no kernel has written), and a
sketch is the sequence of contributions applied to it. -/
structure Device where
  arrays : DeviceArrays
  d_buckets : Nat → Option Batch
  h_buckets : Nat → Option Batch
  table : Nat → List (Option Batch)

/-- Modelled from the spec: what the kernel does for batch slot `k` (§4.3). -/
def kernel_slot (cfg : Config) (dev : Device) (k : Nat) : Device :=
  if cfg.cudaUVM_enabled then
    { dev with
      table := Function.update dev.table (global_index cfg (kernel_batch dev.arrays k).1)
        (dev.table (global_index cfg (kernel_batch dev.arrays k).1)
          ++ [some (kernel_batch dev.arrays k)]) }
  else
    { dev with d_buckets := Function.update dev.d_buckets k (some (kernel_batch dev.arrays k)) }

/-- Modelled from the spec: effect of one event on device and sketch table.  The
copy-back of `n` buckets covers the delta slots that lie wholly inside the first `n`
buckets; a merge reads the delta slot at bucket offset `off`. -/
def exec (cfg : Config) (dev : Device) : Event → Device
  | .synchronize => dev
  | .sketchUpdate _ n => (List.range n).foldl (kernel_slot cfg) dev
  | .copy_buckets_back n =>
    { dev with
      h_buckets := fun k => if (k + 1) * cfg.num_buckets ≤ n then dev.d_buckets k
        else dev.h_buckets k }
  | .apply_raw_buckets_update index off =>
    { dev with
      table := Function.update dev.table index
        (dev.table index ++ [dev.h_buckets (off / cfg.num_buckets)]) }
  | e => { dev with arrays := receive dev.arrays e }

/-- Device and sketch table before any event. -/
def blank_device : Device :=
  { arrays := blank_arrays, d_buckets := fun _ => none, h_buckets := fun _ => none,
    table := fun _ => [] }

/-- The sketch table after a stream of batches and the final `flush_buffers`. -/
def final_table (cfg : Config) (bs : List Batch) : Nat → List (Option Batch) :=
  ((stream_trace cfg bs).foldl (exec cfg) blank_device).table

/-- Scans a trace and checks that every merge reads a delta slot that a kernel
launch has produced, a later copy-back has covered and a still later drain-wait has
waited for, with no launch or copy-back since.  `launched` is the number of slots of
the last launch, `copied` the number of them a copy-back has covered since, `ready`
the number of them that a drain-wait has made available. -/
def merges_after_copy_back (cfg : Config) : Nat → Nat → Nat → List Event → Bool
  | _, _, _, [] => true
  | launched, copied, ready, e :: es =>
    match e with
    | .sketchUpdate _ n => merges_after_copy_back cfg n 0 0 es
    | .copy_buckets_back n =>
      merges_after_copy_back cfg launched (min launched (n / cfg.num_buckets)) 0 es
    | .synchronize => merges_after_copy_back cfg launched copied copied es
    | .apply_raw_buckets_update _ off =>
      decide (off / cfg.num_buckets < ready) && merges_after_copy_back cfg launched copied ready es
    | _ => merges_after_copy_back cfg launched copied ready es

/-- The `int` locals of the flush functions hold the values they are assigned, and
the `size_t` difference `batch_offset - start_index` does not wrap. -/
def ints_fit (cfg : Config) (s : State) : Prop :=
  s.batch_count < 2 ^ 31 ∧
  s.buffer_id * cfg.num_batch_per_buffer * cfg.batch_size < 2 ^ 31 ∧
  s.buffer_id * cfg.num_batch_per_buffer < 2 ^ 31 ∧
  s.buffer_id * cfg.num_batch_per_buffer * cfg.batch_size ≤ s.batch_offset ∧
  s.batch_offset < 2 ^ 64

/-- A staged configuration whose halves have `2 ^ 31` update slots: two batches of
`2 ^ 30` updates. -/
def cfg_wide : Config :=
  { graph_id := 0, num_nodes := 4, num_device_threads := 8, num_batch_per_buffer := 2,
    batch_size := 2 ^ 30, num_buckets := 3, cudaUVM_enabled := false, node_bits := 32 }

/-- The counters of `cfg_wide` after two batches of `2 ^ 30` updates and a third batch
of one update: half 1 is filling and holds one update. -/
def state_wide : State :=
  { buffer_id := 1, batch_offset := 2 ^ 31 + 1, batch_count := 1, first_buffer := false,
    h_edgeUpdates := fun _ => 0, h_update_sizes := fun _ => 0,
    h_update_src := fun _ => 0, h_update_start_index := fun _ => 0 }

/-! ### The `int` locals of the flush functions -/

theorem to_int_of_lt (n : Nat) (h : n < 2 ^ 31) : to_int n = (n : Int) := by
  unfold to_int
  omega

theorem to_size_t_cast (n : Nat) (h : n < 2 ^ 64) : to_size_t (n : Int) = n := by
  unfold to_size_t
  omega

/-- With `2 ^ 31` update slots per half the `int` `start_index` of the flush functions
is negative for half 1, and the length of the update-array copy, computed in
`size_t`, is `2 ^ 32 + 1` elements instead of 1; `process_batch`, which keeps
`start_index` in a `size_t`, has the base `2 ^ 31`. -/
theorem flush_start_index_wraps :
    start_index cfg_wide state_wide = 2 ^ 31 ∧
    flush_start_index cfg_wide state_wide = -(2 ^ 31) ∧
    to_size_t (flush_start_index cfg_wide state_wide) = 2 ^ 64 - 2 ^ 31 ∧
    flush_copy_length cfg_wide state_wide = 2 ^ 32 + 1 := by
  decide

theorem num_batches_left_of_fit (cfg : Config) (s : State) (h : ints_fit cfg s) :
    num_batches_left s = (s.batch_count : Int) ∧
    to_size_t (num_batches_left s) = s.batch_count ∧
    (num_batches_left s).toNat = s.batch_count := by
  obtain ⟨h1, -, -, -, -⟩ := h
  have e : num_batches_left s = (s.batch_count : Int) := to_int_of_lt _ h1
  refine ⟨e, ?_, ?_⟩
  · rw [e]; exact to_size_t_cast _ (by omega)
  · rw [e]; exact Int.toNat_ofNat _

theorem flush_start_index_of_fit (cfg : Config) (s : State) (h : ints_fit cfg s) :
    to_size_t (flush_start_index cfg s) = start_index cfg s ∧
    flush_copy_length cfg s = s.batch_offset - start_index cfg s := by
  obtain ⟨-, h2, -, h4, h5⟩ := h
  have e : to_size_t (flush_start_index cfg s) = start_index cfg s := by
    unfold flush_start_index start_index
    rw [to_int_of_lt _ h2]
    exact to_size_t_cast _ (by omega)
  refine ⟨e, ?_⟩
  unfold flush_copy_length
  rw [e]
  unfold start_index
  omega

theorem flush_start_batch_id_of_fit (cfg : Config) (s : State) (h : ints_fit cfg s) (k : Nat)
    (hk : k < 2 ^ 31) :
    to_size_t (flush_start_batch_id cfg s + Int.ofNat k) = start_batch_id cfg s + k := by
  obtain ⟨-, -, h3, -, -⟩ := h
  unfold flush_start_batch_id start_batch_id
  rw [to_int_of_lt _ h3]
  have : ((s.buffer_id * cfg.num_batch_per_buffer : Nat) : Int) + Int.ofNat k =
      ((s.buffer_id * cfg.num_batch_per_buffer + k : Nat) : Int) := by
    simp
  rw [this]
  exact to_size_t_cast _ (by omega)

theorem flush_transfer_buffers_of_fit (cfg : Config) (s : State) (h : ints_fit cfg s) :
    flush_transfer_buffers cfg s = transfer_buffers cfg s s.batch_count := by
  have e0 := flush_start_batch_id_of_fit cfg s h 0 (by decide)
  simp only [Int.ofNat_eq_coe, Nat.cast_zero, add_zero, Nat.add_zero] at e0
  unfold flush_transfer_buffers transfer_buffers
  rw [(flush_start_index_of_fit cfg s h).1, (flush_start_index_of_fit cfg s h).2,
    (num_batches_left_of_fit cfg s h).2.1, e0]

theorem flush_UVM_of_fit (cfg : Config) (hu : cfg.cudaUVM_enabled = true) (s : State)
    (h : ints_fit cfg s) :
    (flush_buffers cfg s).2 =
      (if s.batch_count = 0 then []
       else transfer_buffers cfg s s.batch_count
        ++ [Event.sketchUpdate cfg.num_device_threads s.batch_count]) := by
  unfold flush_buffers flush_buffers_UVM
  rw [hu, flush_transfer_buffers_of_fit cfg s h, (num_batches_left_of_fit cfg s h).2.1]
  simp only [if_true]
  split <;> rfl

theorem flush_default_of_zero (cfg : Config) (hu : cfg.cudaUVM_enabled = false) (s : State)
    (hc : s.batch_count = 0) :
    (flush_buffers cfg s).2 = Event.synchronize ::
      apply_delta_loop cfg s ((s.buffer_id ^^^ 1) * cfg.num_batch_per_buffer)
        (batch_limit cfg) := by
  simp [flush_buffers, flush_buffers_default, hu, hc]

theorem flush_default_of_ne (cfg : Config) (hu : cfg.cudaUVM_enabled = false) (s : State)
    (hc : s.batch_count ≠ 0) :
    (flush_buffers cfg s).2 = Event.synchronize ::
      (apply_delta_loop cfg s ((s.buffer_id ^^^ 1) * cfg.num_batch_per_buffer)
        (batch_limit cfg) ++
      (flush_transfer_buffers cfg s ++
        (Event.sketchUpdate cfg.num_device_threads (to_size_t (num_batches_left s)) ::
          Event.copy_buckets_back (cfg.num_buckets * to_size_t (num_batches_left s)) ::
          Event.synchronize ::
          flush_delta_loop cfg s))) := by
  simp [flush_buffers, flush_buffers_default, hu, hc]

theorem flush_UVM_of_zero (cfg : Config) (hu : cfg.cudaUVM_enabled = true) (s : State)
    (hc : s.batch_count = 0) : (flush_buffers cfg s).2 = [] := by
  simp [flush_buffers, flush_buffers_UVM, hu, hc]

theorem flush_UVM_of_ne (cfg : Config) (hu : cfg.cudaUVM_enabled = true) (s : State)
    (hc : s.batch_count ≠ 0) :
    (flush_buffers cfg s).2 = flush_transfer_buffers cfg s ++
      [Event.sketchUpdate cfg.num_device_threads (to_size_t (num_batches_left s))] := by
  simp [flush_buffers, flush_buffers_UVM, hu, hc]

theorem mem_flush_delta_loop {cfg : Config} {s : State} {e : Event}
    (h : e ∈ flush_delta_loop cfg s) : ∃ i off, e = Event.apply_raw_buckets_update i off := by
  unfold flush_delta_loop at h
  rcases List.mem_map.1 h with ⟨k, -, rfl⟩
  exact ⟨_, _, rfl⟩

/-! ### The fill loop -/

theorem fill_edges_of_lt (ds : List Nat) (h : Nat → Nat) (i j : Nat) (hj : j < i) :
    fill_edges h i ds j = h j := by
  induction ds generalizing h i with
  | nil => rfl
  | cons d ds ih =>
    rw [fill_edges, ih _ _ (by omega), Function.update_noteq (by omega)]

theorem fill_edges_of_ge (ds : List Nat) (h : Nat → Nat) (i j : Nat) (hj : i + ds.length ≤ j) :
    fill_edges h i ds j = h j := by
  induction ds generalizing h i with
  | nil => rfl
  | cons d ds ih =>
    simp only [List.length_cons] at hj
    rw [fill_edges, ih _ _ (by omega), Function.update_noteq (by omega)]

theorem fill_edges_at (ds : List Nat) (h : Nat → Nat) (i k : Nat) (hk : k < ds.length) :
    ds[k]? = some (fill_edges h i ds (i + k)) := by
  induction ds generalizing h i k with
  | nil => simp at hk
  | cons d ds ih =>
    cases k with
    | zero =>
      rw [fill_edges, fill_edges_of_lt _ _ _ _ (by omega), Nat.add_zero, Function.update_same]
      simp
    | succ k =>
      simp only [List.length_cons] at hk
      have := ih (Function.update h i d) (i + 1) k (by omega)
      rw [fill_edges, List.getElem?_cons_succ, this]
      congr 2
      omega

theorem slice_fill_edges (ds : List Nat) (h : Nat → Nat) (i : Nat) :
    slice (fill_edges h i ds) i ds.length = ds := by
  apply List.ext_getElem?
  intro k
  by_cases hk : k < ds.length
  · rw [fill_edges_at ds h i k hk]
    simp [slice, hk]
  · have h1 : (slice (fill_edges h i ds) i ds.length).length = ds.length := by simp [slice]
    rw [List.getElem?_eq_none (by omega), List.getElem?_eq_none (by omega)]

/-! ### One `process_batch` call -/

theorem process_batch_of_ne (cfg : Config) (s : State) (src_vertex : Nat)
    (dst_vertices : List Nat) (h : s.batch_count + 1 ≠ cfg.num_batch_per_buffer) :
    process_batch cfg s src_vertex dst_vertices =
      (append_batch cfg s src_vertex dst_vertices, []) := by
  have hlim : ¬ (append_batch cfg s src_vertex dst_vertices).batch_count = batch_limit cfg := h
  cases hu : cfg.cudaUVM_enabled <;>
    simp [process_batch, process_batch_default, process_batch_UVM, hu, hlim]

theorem process_batch_default_of_eq (cfg : Config) (s : State) (src_vertex : Nat)
    (dst_vertices : List Nat) (hu : cfg.cudaUVM_enabled = false)
    (h : s.batch_count + 1 = cfg.num_batch_per_buffer) :
    process_batch cfg s src_vertex dst_vertices =
      (reset_default cfg (append_batch cfg s src_vertex dst_vertices),
        swap_events_default cfg (append_batch cfg s src_vertex dst_vertices)) := by
  have hlim : (append_batch cfg s src_vertex dst_vertices).batch_count = batch_limit cfg := h
  simp [process_batch, process_batch_default, hu, hlim]

theorem process_batch_UVM_of_eq (cfg : Config) (s : State) (src_vertex : Nat)
    (dst_vertices : List Nat) (hu : cfg.cudaUVM_enabled = true)
    (h : s.batch_count + 1 = cfg.num_batch_per_buffer) :
    process_batch cfg s src_vertex dst_vertices =
      (reset_UVM cfg (append_batch cfg s src_vertex dst_vertices),
        swap_events_UVM cfg (append_batch cfg s src_vertex dst_vertices)) := by
  have hlim : (append_batch cfg s src_vertex dst_vertices).batch_count = batch_limit cfg := h
  simp [process_batch, process_batch_UVM, hu, hlim]

theorem xor_one_le_one (b : Nat) (hb : b ≤ 1) : b ^^^ 1 ≤ 1 := by
  interval_cases b <;> decide

/-! ### Invariants of the reachable states -/

theorem run_from_append (cfg : Config) (s : State) (bs cs : List Batch) :
    run_from cfg s (bs ++ cs) =
      ((run_from cfg (run_from cfg s bs).1 cs).1,
        (run_from cfg s bs).2 ++ (run_from cfg (run_from cfg s bs).1 cs).2) := by
  induction bs generalizing s with
  | nil => simp [run_from]
  | cons b bs ih => simp [run_from, ih, List.append_assoc]

theorem offset_matches_sizes_construct (cfg : Config) : offset_matches_sizes cfg construct := by
  simp [offset_matches_sizes, construct, start_index]

theorem offset_matches_sizes_append (cfg : Config) (s : State) (src_vertex : Nat)
    (dst_vertices : List Nat) (h : offset_matches_sizes cfg s) :
    offset_matches_sizes cfg (append_batch cfg s src_vertex dst_vertices) := by
  unfold offset_matches_sizes at h ⊢
  have hsum : (List.map (fun j => Function.update s.h_update_sizes
        (start_batch_id cfg s + s.batch_count) dst_vertices.length (start_batch_id cfg s + j))
        (List.range s.batch_count)) =
      List.map (fun j => s.h_update_sizes (start_batch_id cfg s + j))
        (List.range s.batch_count) := by
    apply List.map_congr_left
    intro j hj
    have := List.mem_range.1 hj
    rw [Function.update_noteq (by omega)]
  simp only [append_batch, start_index, start_batch_id] at h ⊢
  simp only [start_batch_id] at hsum
  rw [List.range_succ, List.map_append, List.sum_append, hsum]
  simp only [List.map_cons, List.map_nil, List.sum_cons, List.sum_nil, Function.update_same]
  omega

theorem offset_matches_sizes_process_batch (cfg : Config) (s : State) (src_vertex : Nat)
    (dst_vertices : List Nat) (h : offset_matches_sizes cfg s) :
    offset_matches_sizes cfg (process_batch cfg s src_vertex dst_vertices).1 := by
  by_cases hc : s.batch_count + 1 = cfg.num_batch_per_buffer
  · cases hu : cfg.cudaUVM_enabled
    · rw [process_batch_default_of_eq cfg s _ _ hu hc]
      simp [offset_matches_sizes, reset_default, start_index]
    · rw [process_batch_UVM_of_eq cfg s _ _ hu hc]
      simp [offset_matches_sizes, reset_UVM, start_index]
  · rw [process_batch_of_ne cfg s _ _ hc]
    exact offset_matches_sizes_append cfg s _ _ h

theorem offset_matches_sizes_run_from (cfg : Config) (bs : List Batch) (s : State)
    (h : offset_matches_sizes cfg s) : offset_matches_sizes cfg (run_from cfg s bs).1 := by
  induction bs generalizing s with
  | nil => exact h
  | cons b bs ih => exact ih _ (offset_matches_sizes_process_batch cfg s _ _ h)

theorem within_capacity_process_batch (cfg : Config) (s : State) (src_vertex : Nat)
    (dst_vertices : List Nat) (hd : dst_vertices.length ≤ cfg.batch_size)
    (h : within_capacity cfg s) :
    within_capacity cfg (process_batch cfg s src_vertex dst_vertices).1 := by
  obtain ⟨hb, hk, hlo, hhi⟩ := h
  by_cases hc : s.batch_count + 1 = cfg.num_batch_per_buffer
  · have hx := xor_one_le_one s.buffer_id hb
    cases hu : cfg.cudaUVM_enabled
    · rw [process_batch_default_of_eq cfg s _ _ hu hc]
      refine ⟨hx, ?_, ?_, ?_⟩ <;> simp [reset_default, append_batch, start_index]
      omega
    · rw [process_batch_UVM_of_eq cfg s _ _ hu hc]
      refine ⟨hx, ?_, ?_, ?_⟩ <;> simp [reset_UVM, append_batch, start_index]
      omega
  · rw [process_batch_of_ne cfg s _ _ hc]
    refine ⟨hb, ?_, ?_, ?_⟩
    · show s.batch_count + 1 < cfg.num_batch_per_buffer
      omega
    · show start_index cfg s ≤ s.batch_offset + dst_vertices.length
      omega
    · show s.batch_offset + dst_vertices.length ≤
        start_index cfg s + (s.batch_count + 1) * cfg.batch_size
      rw [Nat.add_mul, Nat.one_mul]
      omega

theorem within_capacity_run_from (cfg : Config) (bs : List Batch) (s : State)
    (hbs : ∀ b ∈ bs, b.2.length ≤ cfg.batch_size) (h : within_capacity cfg s) :
    within_capacity cfg (run_from cfg s bs).1 := by
  induction bs generalizing s with
  | nil => exact h
  | cons b bs ih =>
    exact ih _ (fun c hc => hbs c (List.mem_cons_of_mem _ hc))
      (within_capacity_process_batch cfg s _ _ (hbs b (List.mem_cons_self _ _)) h)

theorem within_capacity_construct (cfg : Config) (h1 : 1 ≤ cfg.num_batch_per_buffer) :
    within_capacity cfg construct := by
  refine ⟨?_, ?_, ?_, ?_⟩ <;> simp [construct, start_index]
  omega

theorem half_end_le (cfg : Config) (s : State) (h : within_capacity cfg s) :
    start_index cfg s + (s.batch_count + 1) * cfg.batch_size ≤
      2 * cfg.num_batch_per_buffer * cfg.batch_size := by
  obtain ⟨hb, hk, -, -⟩ := h
  have h1 : (s.batch_count + 1) * cfg.batch_size ≤ cfg.num_batch_per_buffer * cfg.batch_size :=
    Nat.mul_le_mul_right _ (by omega)
  have h2 : start_index cfg s ≤ cfg.num_batch_per_buffer * cfg.batch_size := by
    unfold start_index
    have hb1 : s.buffer_id * cfg.num_batch_per_buffer ≤ 1 * cfg.num_batch_per_buffer :=
      Nat.mul_le_mul_right _ hb
    rw [Nat.one_mul] at hb1
    exact Nat.mul_le_mul_right _ hb1
  have h3 : 2 * cfg.num_batch_per_buffer * cfg.batch_size =
      cfg.num_batch_per_buffer * cfg.batch_size + cfg.num_batch_per_buffer * cfg.batch_size := by
    rw [Nat.mul_assoc, Nat.two_mul]
  omega

/-! ### Slices of the host arrays -/

theorem slice_add (h : Nat → Nat) (i m n : Nat) :
    slice h i (m + n) = slice h i m ++ slice h (i + m) n := by
  simp [slice, List.range_add, List.map_append, Nat.add_assoc]

theorem slice_congr (h g : Nat → Nat) (i n : Nat) (hk : ∀ k, k < n → h (i + k) = g (i + k)) :
    slice h i n = slice g i n := by
  unfold slice
  apply List.map_congr_left
  intro k hk1
  exact hk k (List.mem_range.1 hk1)

/-! ### The global sketch index -/

theorem global_index_of_fit (cfg : Config) (src : Nat) (hg : 0 ≤ cfg.graph_id)
    (hfit : (cfg.graph_id.toNat + 1) * cfg.num_nodes ≤ 2 ^ cfg.node_bits)
    (hs : src < cfg.num_nodes) :
    global_index cfg src = cfg.graph_id.toNat * cfg.num_nodes + src := by
  unfold global_index
  rw [Nat.add_mul, Nat.one_mul] at hfit
  have hgn : cfg.graph_id.toNat + 1 ≤ (cfg.graph_id.toNat + 1) * cfg.num_nodes :=
    Nat.le_mul_of_pos_right _ (by omega)
  rw [Nat.add_mul, Nat.one_mul] at hgn
  have hprod : cfg.graph_id.toNat * cfg.num_nodes < 2 ^ cfg.node_bits := by omega
  have hsum : cfg.graph_id.toNat * cfg.num_nodes + src < 2 ^ cfg.node_bits := by omega
  have hconv : (cfg.graph_id % (2 : Int) ^ cfg.node_bits).toNat = cfg.graph_id.toNat := by
    have h1 : (cfg.graph_id.toNat : Int) < ((2 ^ cfg.node_bits : Nat) : Int) := by
      exact_mod_cast (by omega : cfg.graph_id.toNat < 2 ^ cfg.node_bits)
    rw [Int.toNat_of_nonneg hg] at h1
    rw [Int.emod_eq_of_lt hg (by simpa using h1)]
  rw [hconv, Nat.mod_eq_of_lt hprod, Nat.mod_eq_of_lt hsum]

/-! ### Drain-waits before launches -/

theorem drained_append (d : Bool) (es fs : List Event) :
    drained_before_launch d (es ++ fs) =
      (drained_before_launch d es && drained_before_launch (drained_after d es) fs) := by
  induction es generalizing d with
  | nil => simp [drained_before_launch, drained_after]
  | cons e es ih =>
    cases e <;> simp [drained_before_launch, drained_after, ih, Bool.and_assoc]

theorem drained_after_append (d : Bool) (es fs : List Event) :
    drained_after d (es ++ fs) = drained_after (drained_after d es) fs := by
  induction es generalizing d with
  | nil => simp [drained_after]
  | cons e es ih => cases e <;> simp [drained_after, ih]

theorem drained_apply_delta_loop (cfg : Config) (s : State) (first n : Nat) (d : Bool) :
    drained_before_launch d (apply_delta_loop cfg s first n) = true ∧
    drained_after d (apply_delta_loop cfg s first n) = d := by
  unfold apply_delta_loop
  induction (List.range n) with
  | nil => exact ⟨rfl, rfl⟩
  | cons k ks ih => simpa [drained_before_launch, drained_after] using ih

theorem drained_transfer_launch (cfg : Config) (s : State) (n : Nat) (fs : List Event) :
    drained_before_launch true
      (transfer_buffers cfg s n ++ Event.sketchUpdate cfg.num_device_threads n :: fs) =
      drained_before_launch false fs := by
  simp [transfer_buffers, drained_before_launch]

theorem drained_swap_events_UVM (cfg : Config) (s : State) (d : Bool) :
    drained_before_launch d (swap_events_UVM cfg s) = true ∧
    drained_after d (swap_events_UVM cfg s) = false := by
  simp [swap_events_UVM, transfer_buffers, drained_before_launch, drained_after]

theorem drained_skip_merges (cfg : Config) (s : State) (first n : Nat) (d : Bool)
    (fs : List Event) :
    drained_before_launch d (apply_delta_loop cfg s first n ++ fs) = drained_before_launch d fs ∧
    drained_after d (apply_delta_loop cfg s first n ++ fs) = drained_after d fs := by
  have hl := drained_apply_delta_loop cfg s first n d
  rw [drained_append, drained_after_append, hl.1, hl.2, Bool.true_and]
  exact ⟨rfl, rfl⟩

theorem drained_swap_events_default (cfg : Config) (s : State) (d : Bool) :
    drained_before_launch d (swap_events_default cfg s) = true ∧
    drained_after d (swap_events_default cfg s) = false := by
  unfold swap_events_default
  cases s.first_buffer
  · simp only [Bool.false_eq_true, if_false]
    rw [List.append_assoc, List.append_assoc, List.singleton_append]
    show drained_before_launch true (_ ++ _) = true ∧ drained_after true (_ ++ _) = false
    rw [(drained_skip_merges cfg s _ _ true _).1, (drained_skip_merges cfg s _ _ true _).2]
    simp [transfer_buffers, drained_before_launch, drained_after]
  · simp [transfer_buffers, drained_before_launch, drained_after]

theorem drained_process_batch (cfg : Config) (s : State) (src_vertex : Nat)
    (dst_vertices : List Nat) (d : Bool) :
    drained_before_launch d (process_batch cfg s src_vertex dst_vertices).2 = true := by
  by_cases hc : s.batch_count + 1 = cfg.num_batch_per_buffer
  · cases hu : cfg.cudaUVM_enabled
    · rw [process_batch_default_of_eq cfg s _ _ hu hc]
      exact (drained_swap_events_default cfg _ d).1
    · rw [process_batch_UVM_of_eq cfg s _ _ hu hc]
      exact (drained_swap_events_UVM cfg _ d).1
  · rw [process_batch_of_ne cfg s _ _ hc]
    rfl

theorem drained_run_from (cfg : Config) (bs : List Batch) (s : State) (d : Bool) :
    drained_before_launch d (run_from cfg s bs).2 = true := by
  induction bs generalizing s d with
  | nil => rfl
  | cons b bs ih =>
    simp only [run_from]
    rw [drained_append, drained_process_batch, ih, Bool.and_self]

theorem drained_flush_delta_loop (cfg : Config) (s : State) (d : Bool) :
    drained_before_launch d (flush_delta_loop cfg s) = true := by
  unfold flush_delta_loop
  induction (List.range (num_batches_left s).toNat) with
  | nil => rfl
  | cons k ks ih => simpa [drained_before_launch] using ih

theorem drained_flush_transfer_launch (cfg : Config) (s : State) (t n : Nat)
    (fs : List Event) :
    drained_before_launch true
      (flush_transfer_buffers cfg s ++ Event.sketchUpdate t n :: fs) =
      drained_before_launch false fs := by
  simp only [flush_transfer_buffers, List.cons_append, List.nil_append, drained_before_launch,
    Bool.true_and]

theorem drained_copy_back_sync (d : Bool) (m : Nat) (fs : List Event) :
    drained_before_launch d (Event.copy_buckets_back m :: Event.synchronize :: fs) =
      drained_before_launch true fs := rfl

theorem drained_flush_default (cfg : Config) (hu : cfg.cudaUVM_enabled = false) (s : State)
    (d : Bool) : drained_before_launch d (flush_buffers cfg s).2 = true := by
  by_cases hc : s.batch_count = 0
  · rw [flush_default_of_zero cfg hu s hc]
    show drained_before_launch true (apply_delta_loop cfg s _ _) = true
    exact (drained_apply_delta_loop cfg s _ _ true).1
  · rw [flush_default_of_ne cfg hu s hc]
    show drained_before_launch true (_ ++ _) = true
    rw [(drained_skip_merges cfg s _ _ true _).1, drained_flush_transfer_launch,
      drained_copy_back_sync]
    exact drained_flush_delta_loop cfg s true

/-! ### Unified mode -/

theorem unified_process_batch_events (cfg : Config) (hu : cfg.cudaUVM_enabled = true)
    (s : State) (src_vertex : Nat) (dst_vertices : List Nat) (e : Event)
    (he : e ∈ (process_batch cfg s src_vertex dst_vertices).2) :
    e.is_merge = false ∧ e.is_copy_back = false := by
  by_cases hc : s.batch_count + 1 = cfg.num_batch_per_buffer
  · rw [process_batch_UVM_of_eq cfg s _ _ hu hc] at he
    simp only [swap_events_UVM, transfer_buffers, List.mem_append, List.mem_cons,
      List.mem_singleton, List.not_mem_nil, or_false] at he
    rcases he with (h | h | h | h | h) | h <;> rw [h] <;> exact ⟨rfl, rfl⟩
  · rw [process_batch_of_ne cfg s _ _ hc] at he
    simp at he

theorem unified_flush_events (cfg : Config) (hu : cfg.cudaUVM_enabled = true) (s : State)
    (e : Event) (he : e ∈ (flush_buffers cfg s).2) :
    e.is_merge = false ∧ e.is_copy_back = false ∧ e.is_sync = false := by
  by_cases hc : s.batch_count = 0
  · rw [flush_UVM_of_zero cfg hu s hc] at he
    simp at he
  · rw [flush_UVM_of_ne cfg hu s hc] at he
    simp only [flush_transfer_buffers, List.mem_append, List.mem_cons, List.mem_singleton,
      List.not_mem_nil, or_false] at he
    rcases he with (h | h | h | h) | h <;> rw [h] <;> exact ⟨rfl, rfl, rfl⟩

theorem unified_run_from_events (cfg : Config) (hu : cfg.cudaUVM_enabled = true)
    (bs : List Batch) (s : State) (e : Event) (he : e ∈ (run_from cfg s bs).2) :
    e.is_merge = false ∧ e.is_copy_back = false := by
  induction bs generalizing s with
  | nil => simp [run_from] at he
  | cons b bs ih =>
    simp only [run_from] at he
    rcases List.mem_append.1 he with h | h
    · exact unified_process_batch_events cfg hu s _ _ e h
    · exact ih _ h

/-! ### Basic facts about the event lists -/

theorem mem_apply_delta_loop {cfg : Config} {s : State} {first n : Nat} {e : Event}
    (h : e ∈ apply_delta_loop cfg s first n) : ∃ i off, e = Event.apply_raw_buckets_update i off := by
  unfold apply_delta_loop at h
  rcases List.mem_map.1 h with ⟨k, -, rfl⟩
  exact ⟨_, _, rfl⟩

theorem length_apply_delta_loop (cfg : Config) (s : State) (first n : Nat) :
    (apply_delta_loop cfg s first n).length = n := by
  simp [apply_delta_loop]

theorem countP_sync_apply_delta_loop (cfg : Config) (s : State) (first n : Nat) :
    (apply_delta_loop cfg s first n).countP Event.is_sync = 0 := by
  rw [List.countP_eq_zero]
  intro e he
  rcases mem_apply_delta_loop he with ⟨i, off, rfl⟩
  simp [Event.is_sync]

theorem countP_transfer_apply_delta_loop (cfg : Config) (s : State) (first n : Nat) :
    (apply_delta_loop cfg s first n).countP Event.is_transfer = 0 := by
  rw [List.countP_eq_zero]
  intro e he
  rcases mem_apply_delta_loop he with ⟨i, off, rfl⟩
  simp [Event.is_transfer]

theorem countP_launch_apply_delta_loop (cfg : Config) (s : State) (first n : Nat) :
    (apply_delta_loop cfg s first n).countP Event.is_launch = 0 := by
  rw [List.countP_eq_zero]
  intro e he
  rcases mem_apply_delta_loop he with ⟨i, off, rfl⟩
  simp [Event.is_launch]

theorem countP_merge_apply_delta_loop (cfg : Config) (s : State) (first n : Nat) :
    (apply_delta_loop cfg s first n).countP Event.is_merge = n := by
  have h : ∀ e ∈ apply_delta_loop cfg s first n, Event.is_merge e = true := by
    intro e he
    rcases mem_apply_delta_loop he with ⟨i, off, rfl⟩
    rfl
  rw [List.countP_eq_length.2 h, length_apply_delta_loop]

theorem quiet_apply_delta_loop (cfg : Config) (s : State) (first n : Nat) :
    quiet (apply_delta_loop cfg s first n) = true ↔ n = 0 := by
  constructor
  · intro h
    cases n with
    | zero => rfl
    | succ m =>
      exfalso
      have hmem : Event.apply_raw_buckets_update (global_index cfg (s.h_update_src (first + 0)))
          (0 * cfg.num_buckets) ∈ apply_delta_loop cfg s first (m + 1) := by
        unfold apply_delta_loop
        exact List.mem_map.2 ⟨0, by simp, rfl⟩
      have := (List.all_eq_true.1 h) _ hmem
      simp [Event.is_merge] at this
  · rintro rfl
    rfl

theorem quiet_sync_cons (es : List Event) : quiet (Event.synchronize :: es) = quiet es := rfl

theorem swap_events_default_counts (cfg : Config) (s : State) :
    (swap_events_default cfg s).countP Event.is_sync = 1 ∧
    (swap_events_default cfg s).countP Event.is_transfer = 4 ∧
    (swap_events_default cfg s).countP Event.is_launch = 1 := by
  unfold swap_events_default
  cases s.first_buffer
  · simp only [Bool.false_eq_true, if_false, List.countP_append, countP_sync_apply_delta_loop,
      countP_transfer_apply_delta_loop, countP_launch_apply_delta_loop]
    simp [transfer_buffers, List.countP_cons, Event.is_sync, Event.is_transfer, Event.is_launch]
  · simp [transfer_buffers, List.countP_cons, Event.is_sync, Event.is_transfer, Event.is_launch]

theorem swap_events_UVM_counts (cfg : Config) (s : State) :
    (swap_events_UVM cfg s).countP Event.is_sync = 1 ∧
    (swap_events_UVM cfg s).countP Event.is_transfer = 4 ∧
    (swap_events_UVM cfg s).countP Event.is_launch = 1 := by
  simp [swap_events_UVM, transfer_buffers, List.countP_cons, Event.is_sync, Event.is_transfer,
    Event.is_launch]

theorem flush_buffers_state (cfg : Config) (s : State) : (flush_buffers cfg s).1 = s := by
  unfold flush_buffers flush_buffers_UVM flush_buffers_default
  split <;> split <;> rfl

/-! ### What the filling half holds -/

theorem sum_take_add_le (f : Batch → Nat) (ch : List Batch) (k : Nat) (x : Batch)
    (hx : ch[k]? = some x) :
    ((ch.take k).map f).sum + f x ≤ (ch.map f).sum := by
  induction ch generalizing k with
  | nil => simp at hx
  | cons a ch ih =>
    cases k with
    | zero =>
      simp only [List.getElem?_cons_zero, Option.some.injEq] at hx
      subst hx
      simp
    | succ k =>
      simp only [List.getElem?_cons_succ] at hx
      have := ih k hx
      simp only [List.take_succ_cons, List.map_cons, List.sum_cons]
      omega

theorem half_holds_construct (cfg : Config) : half_holds cfg construct [] := by
  refine ⟨rfl, ?_, ?_⟩
  · simp [construct, start_index]
  · intro k x hx
    simp at hx

theorem half_holds_reset_default (cfg : Config) (s : State) :
    half_holds cfg (reset_default cfg s) [] := by
  refine ⟨rfl, ?_, ?_⟩
  · simp [reset_default, start_index]
  · intro k x hx
    simp at hx

theorem half_holds_reset_UVM (cfg : Config) (s : State) :
    half_holds cfg (reset_UVM cfg s) [] := by
  refine ⟨rfl, ?_, ?_⟩
  · simp [reset_UVM, start_index]
  · intro k x hx
    simp at hx

theorem half_holds_append (cfg : Config) (s : State) (ch : List Batch) (b : Batch)
    (h : half_holds cfg s ch) :
    half_holds cfg (append_batch cfg s b.1 b.2) (ch ++ [b]) := by
  obtain ⟨hcnt, hoff, hcells⟩ := h
  refine ⟨?_, ?_, ?_⟩
  · show s.batch_count + 1 = (ch ++ [b]).length
    simp [hcnt]
  · show s.batch_offset + b.2.length =
      start_index cfg s + ((ch ++ [b]).map (fun b => b.2.length)).sum
    simp [hoff, Nat.add_assoc]
  · intro k x hx
    show Function.update s.h_update_src (start_batch_id cfg s + s.batch_count) b.1
          (start_batch_id cfg s + k) = x.1 ∧
        Function.update s.h_update_sizes (start_batch_id cfg s + s.batch_count) b.2.length
          (start_batch_id cfg s + k) = x.2.length ∧
        Function.update s.h_update_start_index (start_batch_id cfg s + s.batch_count)
          (s.batch_offset - start_index cfg s) (start_batch_id cfg s + k) =
          (((ch ++ [b]).take k).map (fun b => b.2.length)).sum ∧
        slice (fill_edges s.h_edgeUpdates s.batch_offset b.2)
          (start_index cfg s + (((ch ++ [b]).take k).map (fun b => b.2.length)).sum)
          x.2.length = x.2
    by_cases hk : k < ch.length
    · rw [List.getElem?_append_left hk] at hx
      obtain ⟨h1, h2, h3, h4⟩ := hcells k x hx
      have hle : ((ch.take k).map (fun b => b.2.length)).sum + x.2.length ≤
          (ch.map (fun b => b.2.length)).sum := sum_take_add_le (fun b => b.2.length) ch k x hx
      rw [List.take_append_of_le_length (Nat.le_of_lt hk)]
      rw [Function.update_noteq (by omega), Function.update_noteq (by omega),
        Function.update_noteq (by omega)]
      refine ⟨h1, h2, h3, Eq.trans (slice_congr _ _ _ _ ?_) h4⟩
      intro i hi
      exact fill_edges_of_lt _ _ _ _ (by omega)
    · have hlen : (ch ++ [b]).length = ch.length + 1 := by simp
      have hk2 : k < (ch ++ [b]).length := by
        by_contra hcon
        rw [List.getElem?_eq_none (by omega)] at hx
        cases hx
      have hk3 : k = ch.length := by omega
      subst hk3
      rw [List.getElem?_append_right (Nat.le_refl _)] at hx
      simp only [Nat.sub_self, List.getElem?_cons_zero, Option.some.injEq] at hx
      subst hx
      rw [List.take_append_of_le_length (Nat.le_refl _), List.take_length, ← hcnt,
        Function.update_same, Function.update_same, Function.update_same]
      refine ⟨rfl, rfl, by omega, ?_⟩
      have : start_index cfg s + (ch.map (fun b => b.2.length)).sum = s.batch_offset := by
        omega
      rw [this]
      exact slice_fill_edges _ _ _

/-! ### Batches handed to the kernel -/

theorem device_interaction_swap_events_default (cfg : Config) (s : State) :
    device_interaction (swap_events_default cfg s) = true := by
  simp [device_interaction, swap_events_default, Event.is_sync]

theorem device_interaction_swap_events_UVM (cfg : Config) (s : State) :
    device_interaction (swap_events_UVM cfg s) = true := by
  simp [device_interaction, swap_events_UVM, Event.is_sync]

theorem xor_one_xor_one (b : Nat) (hb : b ≤ 1) : (b ^^^ 1) ^^^ 1 = b := by
  interval_cases b <;> decide

theorem xor_one_eq_sub (b : Nat) (hb : b ≤ 1) : b ^^^ 1 = 1 - b := by
  interval_cases b <;> decide

theorem pending_invariant (cfg : Config) (h1 : 1 ≤ cfg.num_batch_per_buffer) (bs : List Batch)
    (s : State) (acc : List Batch) (hb : s.buffer_id ≤ 1)
    (hk : s.batch_count < cfg.num_batch_per_buffer) (hh : half_holds cfg s acc) :
    (run_from cfg s bs).1.buffer_id ≤ 1 ∧
    (run_from cfg s bs).1.batch_count < cfg.num_batch_per_buffer ∧
    half_holds cfg (run_from cfg s bs).1 (pending_from cfg s acc bs) ∧
    pending_from cfg s acc bs <:+ acc ++ bs := by
  induction bs generalizing s acc with
  | nil => exact ⟨hb, hk, hh, by simp [pending_from]⟩
  | cons b bs ih =>
    simp only [run_from, pending_from]
    by_cases hc : s.batch_count + 1 = cfg.num_batch_per_buffer
    · cases hu : cfg.cudaUVM_enabled
      · rw [process_batch_default_of_eq cfg s _ _ hu hc]
        simp only [device_interaction_swap_events_default, if_true]
        obtain ⟨i1, i2, i3, i4⟩ := ih (reset_default cfg (append_batch cfg s b.1 b.2)) []
          (xor_one_le_one _ hb) h1 (half_holds_reset_default cfg _)
        refine ⟨i1, i2, i3, i4.trans ?_⟩
        rw [List.nil_append]
        exact (List.suffix_cons b bs).trans (List.suffix_append acc (b :: bs))
      · rw [process_batch_UVM_of_eq cfg s _ _ hu hc]
        simp only [device_interaction_swap_events_UVM, if_true]
        obtain ⟨i1, i2, i3, i4⟩ := ih (reset_UVM cfg (append_batch cfg s b.1 b.2)) []
          (xor_one_le_one _ hb) h1 (half_holds_reset_UVM cfg _)
        refine ⟨i1, i2, i3, i4.trans ?_⟩
        rw [List.nil_append]
        exact (List.suffix_cons b bs).trans (List.suffix_append acc (b :: bs))
    · rw [process_batch_of_ne cfg s _ _ hc]
      have hd : device_interaction ([] : List Event) = false := rfl
      simp only [hd, Bool.false_eq_true, if_false]
      obtain ⟨i1, i2, i3, i4⟩ := ih (append_batch cfg s b.1 b.2) (acc ++ [b]) hb
        (show s.batch_count + 1 < cfg.num_batch_per_buffer by omega)
        (half_holds_append cfg s acc b hh)
      refine ⟨i1, i2, i3, ?_⟩
      simpa using i4

theorem other_half_sources_append (cfg : Config) (s : State) (p : List Batch)
    (src_vertex : Nat) (dst_vertices : List Nat) (hb : s.buffer_id ≤ 1)
    (hk : s.batch_count < cfg.num_batch_per_buffer) (hp : p.length ≤ cfg.num_batch_per_buffer)
    (h : other_half_sources cfg s p) :
    other_half_sources cfg (append_batch cfg s src_vertex dst_vertices) p := by
  intro k x hx
  have hkp : k < p.length := by
    by_contra hcon
    rw [List.getElem?_eq_none (by omega)] at hx
    cases hx
  have hold := h k x hx
  show Function.update s.h_update_src (start_batch_id cfg s + s.batch_count) src_vertex
    ((s.buffer_id ^^^ 1) * cfg.num_batch_per_buffer + k) = x.1
  have x0 : (0 : Nat) ^^^ 1 = 1 := by decide
  have x1 : (1 : Nat) ^^^ 1 = 0 := by decide
  have hne : (s.buffer_id ^^^ 1) * cfg.num_batch_per_buffer + k ≠
      start_batch_id cfg s + s.batch_count := by
    unfold start_batch_id
    have h01 : s.buffer_id = 0 ∨ s.buffer_id = 1 := by omega
    rcases h01 with h0 | h0 <;> rw [h0] <;> simp only [x0, x1] <;> omega
  rw [Function.update_noteq hne]
  exact hold

theorem no_swap_run (cfg : Config) (cs : List Batch) (s : State) (ch : List Batch)
    (hh : half_holds cfg s ch) (hlen : ch.length + cs.length < cfg.num_batch_per_buffer) :
    (run_from cfg s cs).2 = [] ∧
    half_holds cfg (run_from cfg s cs).1 (ch ++ cs) ∧
    (run_from cfg s cs).1.buffer_id = s.buffer_id ∧
    (run_from cfg s cs).1.first_buffer = s.first_buffer ∧
    (∀ p : List Batch, s.buffer_id ≤ 1 → p.length ≤ cfg.num_batch_per_buffer →
      other_half_sources cfg s p → other_half_sources cfg (run_from cfg s cs).1 p) := by
  induction cs generalizing s ch with
  | nil => exact ⟨rfl, by simpa using hh, rfl, rfl, fun p _ _ hp => hp⟩
  | cons b cs ih =>
    simp only [List.length_cons] at hlen
    have hcnt : s.batch_count = ch.length := hh.1
    have hc : s.batch_count + 1 ≠ cfg.num_batch_per_buffer := by omega
    simp only [run_from]
    rw [process_batch_of_ne cfg s _ _ hc]
    obtain ⟨i1, i2, i3, i4, i5⟩ := ih (append_batch cfg s b.1 b.2) (ch ++ [b])
      (half_holds_append cfg s ch b hh) (by simp; omega)
    refine ⟨by simpa using i1, by simpa using i2, i3, i4, ?_⟩
    intro p hb hp hsrc
    exact i5 p hb hp (other_half_sources_append cfg s p _ _ hb (by omega) hp hsrc)

theorem full_chunk_run (cfg : Config) (h1 : 1 ≤ cfg.num_batch_per_buffer) (cs : List Batch)
    (s : State) (hh : half_holds cfg s []) (hb : s.buffer_id ≤ 1)
    (hlen : cs.length = cfg.num_batch_per_buffer) :
    half_holds cfg (run_from cfg s cs).1 [] ∧
    (run_from cfg s cs).1.buffer_id ≤ 1 ∧
    other_half_sources cfg (run_from cfg s cs).1 cs ∧
    (cfg.cudaUVM_enabled = false → (run_from cfg s cs).1.first_buffer = false) := by
  rcases List.eq_nil_or_concat cs with hnil | ⟨front, b, hcs⟩
  · rw [hnil] at hlen
    simp at hlen
    omega
  · rw [List.concat_eq_append] at hcs
    subst hcs
    simp only [List.length_append, List.length_singleton] at hlen
    obtain ⟨-, n2, n3, -, -⟩ := no_swap_run cfg front s [] hh (by simp; omega)
    rw [List.nil_append] at n2
    have hc : (run_from cfg s front).1.batch_count + 1 = cfg.num_batch_per_buffer := by
      rw [n2.1]; exact hlen
    have hb1 : (run_from cfg s front).1.buffer_id ≤ 1 := by rw [n3]; exact hb
    have happ := half_holds_append cfg _ front b n2
    have hsrc : ∀ (k : Nat) (x : Batch), (front ++ [b])[k]? = some x →
        (append_batch cfg (run_from cfg s front).1 b.1 b.2).h_update_src
          ((((run_from cfg s front).1.buffer_id ^^^ 1) ^^^ 1) * cfg.num_batch_per_buffer + k)
          = x.1 := by
      intro k x hx
      rw [xor_one_xor_one _ hb1]
      exact (happ.2.2 k x hx).1
    rw [run_from_append]
    simp only [run_from]
    cases hu : cfg.cudaUVM_enabled
    · rw [process_batch_default_of_eq cfg _ _ _ hu hc]
      exact ⟨half_holds_reset_default cfg _, xor_one_le_one _ hb1, hsrc, fun _ => rfl⟩
    · rw [process_batch_UVM_of_eq cfg _ _ _ hu hc]
      exact ⟨half_holds_reset_UVM cfg _, xor_one_le_one _ hb1, hsrc, fun h => by cases h⟩

theorem chunks_run (cfg : Config) (h1 : 1 ≤ cfg.num_batch_per_buffer) (m : Nat)
    (bs : List Batch) (s : State) (hlen : bs.length = m * cfg.num_batch_per_buffer)
    (hh : half_holds cfg s []) (hb : s.buffer_id ≤ 1) :
    half_holds cfg (run_from cfg s bs).1 [] ∧ (run_from cfg s bs).1.buffer_id ≤ 1 := by
  induction m generalizing bs s with
  | zero =>
    have : bs = [] := List.length_eq_zero.1 (by simpa using hlen)
    subst this
    exact ⟨hh, hb⟩
  | succ m ih =>
    rw [Nat.succ_mul] at hlen
    have hsplit : bs = bs.take cfg.num_batch_per_buffer ++ bs.drop cfg.num_batch_per_buffer :=
      (List.take_append_drop _ _).symm
    have htake : (bs.take cfg.num_batch_per_buffer).length = cfg.num_batch_per_buffer := by
      rw [List.length_take]; omega
    have hdrop : (bs.drop cfg.num_batch_per_buffer).length = m * cfg.num_batch_per_buffer := by
      rw [List.length_drop]; omega
    obtain ⟨f1, f2, -, -⟩ := full_chunk_run cfg h1 _ s hh hb htake
    rw [hsplit, run_from_append]
    exact ih _ _ hdrop f1 f2

theorem first_buffer_run_from (cfg : Config) (hu : cfg.cudaUVM_enabled = false)
    (bs : List Batch) (s : State) (pre : List Event)
    (h : s.first_buffer = true ↔ pre = []) :
    (run_from cfg s bs).1.first_buffer = true ↔ pre ++ (run_from cfg s bs).2 = [] := by
  induction bs generalizing s pre with
  | nil => simpa [run_from] using h
  | cons b bs ih =>
    simp only [run_from]
    rw [← List.append_assoc]
    apply ih
    by_cases hc : s.batch_count + 1 = cfg.num_batch_per_buffer
    · rw [process_batch_default_of_eq cfg s _ _ hu hc]
      simp [reset_default, swap_events_default]
    · rw [process_batch_of_ne cfg s _ _ hc]
      simpa [append_batch] using h

theorem countP_copy_back_apply_delta_loop (cfg : Config) (s : State) (first n : Nat) :
    (apply_delta_loop cfg s first n).countP Event.is_copy_back = 0 := by
  rw [List.countP_eq_zero]
  intro e he
  rcases mem_apply_delta_loop he with ⟨i, off, rfl⟩
  simp [Event.is_copy_back]

theorem flush_transfer_buffers_counts (cfg : Config) (s : State) :
    (flush_transfer_buffers cfg s).countP Event.is_transfer = 4 ∧
    (flush_transfer_buffers cfg s).countP Event.is_launch = 0 ∧
    (flush_transfer_buffers cfg s).countP Event.is_copy_back = 0 ∧
    (flush_transfer_buffers cfg s).countP Event.is_sync = 0 :=
  ⟨rfl, rfl, rfl, rfl⟩

theorem flush_delta_loop_counts (cfg : Config) (s : State) :
    (flush_delta_loop cfg s).countP Event.is_transfer = 0 ∧
    (flush_delta_loop cfg s).countP Event.is_launch = 0 ∧
    (flush_delta_loop cfg s).countP Event.is_copy_back = 0 ∧
    (flush_delta_loop cfg s).countP Event.is_sync = 0 := by
  refine ⟨?_, ?_, ?_, ?_⟩ <;> rw [List.countP_eq_zero] <;> intro e he <;>
    rcases mem_flush_delta_loop he with ⟨i, off, rfl⟩ <;> simp [Event.is_transfer,
      Event.is_launch, Event.is_copy_back, Event.is_sync]

theorem flush_UVM_counts (cfg : Config) (hu : cfg.cudaUVM_enabled = true) (s : State)
    (hc : s.batch_count ≠ 0) :
    (flush_buffers cfg s).2.countP Event.is_transfer = 4 ∧
    (flush_buffers cfg s).2.countP Event.is_launch = 1 ∧
    (flush_buffers cfg s).2.length = 5 := by
  rw [flush_UVM_of_ne cfg hu s hc]
  obtain ⟨t1, t2, -, -⟩ := flush_transfer_buffers_counts cfg s
  refine ⟨?_, ?_, rfl⟩
  · rw [List.countP_append, t1]; rfl
  · rw [List.countP_append, t2]; rfl

theorem flush_default_counts (cfg : Config) (hu : cfg.cudaUVM_enabled = false) (s : State)
    (hc : s.batch_count ≠ 0) :
    (flush_buffers cfg s).2.countP Event.is_transfer = 4 ∧
    (flush_buffers cfg s).2.countP Event.is_launch = 1 ∧
    (flush_buffers cfg s).2.countP Event.is_copy_back = 1 ∧
    (flush_buffers cfg s).2.countP Event.is_sync = 2 := by
  rw [flush_default_of_ne cfg hu s hc]
  obtain ⟨t1, t2, t3, t4⟩ := flush_transfer_buffers_counts cfg s
  obtain ⟨d1, d2, d3, d4⟩ := flush_delta_loop_counts cfg s
  refine ⟨?_, ?_, ?_, ?_⟩
  · rw [List.countP_cons, List.countP_append, List.countP_append,
      countP_transfer_apply_delta_loop, t1, List.countP_cons, List.countP_cons,
      List.countP_cons, d1]
    rfl
  · rw [List.countP_cons, List.countP_append, List.countP_append,
      countP_launch_apply_delta_loop, t2, List.countP_cons, List.countP_cons,
      List.countP_cons, d2]
    rfl
  · rw [List.countP_cons, List.countP_append, List.countP_append,
      countP_copy_back_apply_delta_loop, t3, List.countP_cons, List.countP_cons,
      List.countP_cons, d3]
    rfl
  · rw [List.countP_cons, List.countP_append, List.countP_append,
      countP_sync_apply_delta_loop, t4, List.countP_cons, List.countP_cons,
      List.countP_cons, d4]
    rfl

/-! ### Claims -/

/-- C1 (evaluation at the failing input): staged mode, two batches per half, one
batch submitted for vertex 1 and then `flush_buffers`.  No batch was submitted for
vertex 0, yet the trace holds two merges into the sketch of vertex 0 (bucket
offsets 0 and 3): the unguarded first merge loop of `flush_buffers_default` reads
the never-launched other half. -/
theorem conservation_evaluated_before_first_swap :
    batches_for 0 [(1, [2, 3])] = [] ∧
    merges_for cfg_staged 0 (stream_trace cfg_staged [(1, [2, 3])]) = [0, 3] ∧
    merges_for cfg_staged 1 (stream_trace cfg_staged [(1, [2, 3])]) = [0] := by
  decide

/-- C2 (counterexample): after one submitted batch, the second of two consecutive
`flush_buffers` calls is not a no-op in either mode: it again issues copies and a
kernel launch (and, in staged mode, merges). -/
theorem second_flush_not_noop :
    quiet (flush_buffers cfg_uvm
      (flush_buffers cfg_uvm (run cfg_uvm [(1, [2, 3])]).1).1).2 = false ∧
    quiet (flush_buffers cfg_staged
      (flush_buffers cfg_staged (run cfg_staged [(1, [2, 3])]).1).1).2 = false := by
  decide

/-- C2 (amended): `flush_buffers` leaves the host state as it found it, so a second
call made directly after a first one emits exactly the events of the first.  In
unified mode the second call emits no event at all exactly when `batch_count = 0`;
with `batch_count > 0` it issues the four host-to-device copies and the kernel
launch again.  In staged mode with `batch_count > 0` it again issues two
drain-waits, the four copies, the kernel launch and the copy-back; with
`batch_count = 0` and a half launched before (`first_buffer` false) it again emits
one drain-wait and the `num_batch_per_buffer` merges of the other half. -/
theorem second_flush_repeats_first (cfg : Config) (s : State) :
    (flush_buffers cfg s).1 = s ∧
    (flush_buffers cfg (flush_buffers cfg s).1).1 = s ∧
    (flush_buffers cfg (flush_buffers cfg s).1).2 = (flush_buffers cfg s).2 ∧
    (if cfg.cudaUVM_enabled then
      ((flush_buffers cfg (flush_buffers cfg s).1).2 = [] ↔ s.batch_count = 0) ∧
      (s.batch_count ≠ 0 →
        (flush_buffers cfg (flush_buffers cfg s).1).2.countP Event.is_transfer = 4 ∧
        (flush_buffers cfg (flush_buffers cfg s).1).2.countP Event.is_launch = 1 ∧
        (flush_buffers cfg (flush_buffers cfg s).1).2.length = 5)
     else
      (s.batch_count ≠ 0 →
        (flush_buffers cfg (flush_buffers cfg s).1).2.countP Event.is_transfer = 4 ∧
        (flush_buffers cfg (flush_buffers cfg s).1).2.countP Event.is_launch = 1 ∧
        (flush_buffers cfg (flush_buffers cfg s).1).2.countP Event.is_copy_back = 1 ∧
        (flush_buffers cfg (flush_buffers cfg s).1).2.countP Event.is_sync = 2) ∧
      (s.batch_count = 0 → s.first_buffer = false →
        (flush_buffers cfg (flush_buffers cfg s).1).2 = Event.synchronize ::
          (List.range cfg.num_batch_per_buffer).map (fun k =>
            Event.apply_raw_buckets_update
              (global_index cfg
                (s.h_update_src ((s.buffer_id ^^^ 1) * cfg.num_batch_per_buffer + k)))
              (k * cfg.num_buckets)))) := by
  have hs := flush_buffers_state cfg s
  refine ⟨hs, by rw [hs, hs], by rw [hs], ?_⟩
  rw [hs]
  cases hu : cfg.cudaUVM_enabled
  · simp only [Bool.false_eq_true, if_false]
    exact ⟨fun hc => flush_default_counts cfg hu s hc,
      fun hc _ => flush_default_of_zero cfg hu s hc⟩
  · simp only [if_true]
    refine ⟨⟨fun h => ?_, fun hc => flush_UVM_of_zero cfg hu s hc⟩,
      fun hc => flush_UVM_counts cfg hu s hc⟩
    by_contra hc
    have := (flush_UVM_counts cfg hu s hc).2.2
    rw [h] at this
    cases this

/-- C3 (evaluation at the failing input): staged mode, two batches per half, one
batch submitted, so no swap has happened and `first_buffer` is still true.  The
first phase of `flush_buffers_default` nevertheless makes `num_batch_per_buffer`
calls of `apply_raw_buckets_update`, all for the global index of vertex 0. -/
theorem flush_first_phase_merges_without_predecessor :
    (run cfg_staged [(1, [2, 3])]).2 = [] ∧
    (run cfg_staged [(1, [2, 3])]).1.first_buffer = true ∧
    (flush_buffers_default cfg_staged (run cfg_staged [(1, [2, 3])]).1).2.take 3 =
      [Event.synchronize, Event.apply_raw_buckets_update 0 0,
        Event.apply_raw_buckets_update 0 3] := by
  decide

/-- C4: a `process_batch` call emits a drain-wait, a copy or a launch exactly when
the incremented `batch_count` equals `num_batch_per_buffer`.  In that case it emits
one drain-wait, the four host-to-device copies and one launch; in every other case
it emits no event at all and the resulting state is the one left by the append. -/
theorem swap_trigger (cfg : Config) (s : State) (src_vertex : Nat) (dst_vertices : List Nat) :
    (device_interaction (process_batch cfg s src_vertex dst_vertices).2 = true ↔
      s.batch_count + 1 = cfg.num_batch_per_buffer) ∧
    ((s.batch_count + 1 = cfg.num_batch_per_buffer ∧
        (process_batch cfg s src_vertex dst_vertices).2.countP Event.is_sync = 1 ∧
        (process_batch cfg s src_vertex dst_vertices).2.countP Event.is_transfer = 4 ∧
        (process_batch cfg s src_vertex dst_vertices).2.countP Event.is_launch = 1) ∨
     (s.batch_count + 1 ≠ cfg.num_batch_per_buffer ∧
        (process_batch cfg s src_vertex dst_vertices).2 = [] ∧
        (process_batch cfg s src_vertex dst_vertices).1 =
          append_batch cfg s src_vertex dst_vertices)) := by
  by_cases hc : s.batch_count + 1 = cfg.num_batch_per_buffer
  · have hlim : (append_batch cfg s src_vertex dst_vertices).batch_count = batch_limit cfg := hc
    cases hu : cfg.cudaUVM_enabled
    · have hev : (process_batch cfg s src_vertex dst_vertices).2 =
          swap_events_default cfg (append_batch cfg s src_vertex dst_vertices) := by
        simp [process_batch, process_batch_default, hu, hlim]
      rw [hev]
      refine ⟨⟨fun _ => hc, fun _ => ?_⟩, Or.inl ⟨hc, swap_events_default_counts cfg _⟩⟩
      simp [device_interaction, swap_events_default, Event.is_sync]
    · have hev : (process_batch cfg s src_vertex dst_vertices).2 =
          swap_events_UVM cfg (append_batch cfg s src_vertex dst_vertices) := by
        simp [process_batch, process_batch_UVM, hu, hlim]
      rw [hev]
      refine ⟨⟨fun _ => hc, fun _ => ?_⟩, Or.inl ⟨hc, swap_events_UVM_counts cfg _⟩⟩
      simp [device_interaction, swap_events_UVM, Event.is_sync]
  · have hlim : ¬ (append_batch cfg s src_vertex dst_vertices).batch_count = batch_limit cfg := hc
    have hres : process_batch cfg s src_vertex dst_vertices =
        (append_batch cfg s src_vertex dst_vertices, []) := by
      cases hu : cfg.cudaUVM_enabled <;>
        simp [process_batch, process_batch_default, process_batch_UVM, hu, hlim]
    rw [hres]
    exact ⟨⟨fun h => by simp [device_interaction] at h, fun h => absurd h hc⟩,
      Or.inr ⟨hc, rfl, rfl⟩⟩

/-- C5 (counterexample): with two batches per half, after batch A (source 0, five
updates) and batch B (source 1, three updates) the third `process_batch` call
emits no event at all, in staged and in unified mode: it triggers no swap. -/
theorem third_batch_triggers_no_swap :
    (process_batch cfg_staged
      (run cfg_staged [(0, [1, 2, 3, 4, 5]), (1, [7, 8, 9])]).1 2 [4]).2 = [] ∧
    (process_batch cfg_uvm
      (run cfg_uvm [(0, [1, 2, 3, 4, 5]), (1, [7, 8, 9])]).1 2 [4]).2 = [] := by
  decide

/-- C5 (amended): with two batches per half on a fresh instance, batch A (source 0,
five updates) emits nothing; batch B (source 1, three updates), which fills the
half, triggers the one swap: one drain-wait, the four host-to-device copies (the
update array carrying A's updates followed by B's), one kernel launch over two
batches, and no `apply_raw_buckets_update` call; a third batch emits nothing. -/
theorem scenario_swap_on_second_batch (cfg : Config) (hn : cfg.num_batch_per_buffer = 2)
    (a b : List Nat) (ha : a.length = 5) (hb : b.length = 3) (src_vertex : Nat)
    (dst_vertices : List Nat) :
    (process_batch cfg construct 0 a).2 = [] ∧
    (process_batch cfg (run cfg [(0, a)]).1 1 b).2.countP Event.is_sync = 1 ∧
    (process_batch cfg (run cfg [(0, a)]).1 1 b).2.countP Event.is_transfer = 4 ∧
    (process_batch cfg (run cfg [(0, a)]).1 1 b).2.countP Event.is_launch = 1 ∧
    (process_batch cfg (run cfg [(0, a)]).1 1 b).2.countP Event.is_merge = 0 ∧
    Event.sketchUpdate cfg.num_device_threads 2 ∈ (process_batch cfg (run cfg [(0, a)]).1 1 b).2 ∧
    Event.copy_edgeUpdates 0 8 (a ++ b) ∈ (process_batch cfg (run cfg [(0, a)]).1 1 b).2 ∧
    (process_batch cfg (run cfg [(0, a), (1, b)]).1 src_vertex dst_vertices).2 = [] := by
  have hA : process_batch cfg construct 0 a = (append_batch cfg construct 0 a, []) :=
    process_batch_of_ne cfg construct 0 a (by rw [hn]; decide)
  have hrA : run cfg [(0, a)] = (append_batch cfg construct 0 a, []) := by
    simp [run, run_from, hA]
  have hcA : (append_batch cfg construct 0 a).batch_count + 1 = cfg.num_batch_per_buffer := by
    rw [hn]; rfl
  have hdata : slice (fill_edges (fill_edges (fun _ => 0) 0 a) 5 b) 0 8 = a ++ b := by
    have h8 : (8 : Nat) = a.length + b.length := by omega
    have h5 : (5 : Nat) = 0 + a.length := by omega
    rw [h8, slice_add, h5]
    congr 1
    · rw [slice_congr _ (fill_edges (fun _ => 0) 0 a) 0 a.length
        (fun k hk => fill_edges_of_lt b _ _ _ (by omega))]
      exact slice_fill_edges a _ 0
    · exact slice_fill_edges b _ _
  have hmem : Event.copy_edgeUpdates 0 8 (a ++ b) ∈
      transfer_buffers cfg (append_batch cfg (append_batch cfg construct 0 a) 1 b)
        (append_batch cfg (append_batch cfg construct 0 a) 1 b).batch_count := by
    simp [transfer_buffers, append_batch, construct, start_index, ha, hb, hdata]
  have hrAB : (run cfg [(0, a), (1, b)]).1.batch_count + 1 ≠ cfg.num_batch_per_buffer := by
    have : (run cfg [(0, a), (1, b)]).1 = (process_batch cfg (run cfg [(0, a)]).1 1 b).1 := by
      simp [run, run_from]
    rw [this, hrA, hn]
    cases hu : cfg.cudaUVM_enabled
    · rw [process_batch_default_of_eq cfg _ 1 b hu hcA]
      show (0 : Nat) + 1 ≠ 2
      decide
    · rw [process_batch_UVM_of_eq cfg _ 1 b hu hcA]
      show (0 : Nat) + 1 ≠ 2
      decide
  refine ⟨by rw [hA], ?_, ?_, ?_, ?_, ?_, ?_, by rw [process_batch_of_ne cfg _ _ _ hrAB]⟩ <;>
    rw [hrA] <;> cases hu : cfg.cudaUVM_enabled
  · rw [process_batch_default_of_eq cfg _ 1 b hu hcA]
    exact (swap_events_default_counts cfg _).1
  · rw [process_batch_UVM_of_eq cfg _ 1 b hu hcA]
    exact (swap_events_UVM_counts cfg _).1
  · rw [process_batch_default_of_eq cfg _ 1 b hu hcA]
    exact (swap_events_default_counts cfg _).2.1
  · rw [process_batch_UVM_of_eq cfg _ 1 b hu hcA]
    exact (swap_events_UVM_counts cfg _).2.1
  · rw [process_batch_default_of_eq cfg _ 1 b hu hcA]
    exact (swap_events_default_counts cfg _).2.2
  · rw [process_batch_UVM_of_eq cfg _ 1 b hu hcA]
    exact (swap_events_UVM_counts cfg _).2.2
  · rw [process_batch_default_of_eq cfg _ 1 b hu hcA]
    simp [swap_events_default, append_batch, construct, transfer_buffers, List.countP_cons,
      Event.is_merge]
  · rw [process_batch_UVM_of_eq cfg _ 1 b hu hcA]
    simp [swap_events_UVM, transfer_buffers, List.countP_cons, Event.is_merge]
  · rw [process_batch_default_of_eq cfg _ 1 b hu hcA]
    simp [swap_events_default, append_batch, construct]
  · rw [process_batch_UVM_of_eq cfg _ 1 b hu hcA]
    simp [swap_events_UVM, append_batch, construct]
  · rw [process_batch_default_of_eq cfg _ 1 b hu hcA]
    unfold swap_events_default
    simp only [List.mem_append]
    exact Or.inl (Or.inr hmem)
  · rw [process_batch_UVM_of_eq cfg _ 1 b hu hcA]
    unfold swap_events_UVM
    simp only [List.mem_append]
    exact Or.inl (Or.inr hmem)

/-- C5 (witness): the staged configuration with the
batches `(0, [1, 2, 3, 4, 5])`, `(1, [7, 8, 9])` and `(2, [4])`. -/
theorem scenario_swap_on_second_batch_witness :
    cfg_staged.num_batch_per_buffer = 2 ∧ [1, 2, 3, 4, 5].length = 5 ∧ [7, 8, 9].length = 3 ∧
    ((process_batch cfg_staged construct 0 [1, 2, 3, 4, 5]).2 = [] ∧
    (process_batch cfg_staged (run cfg_staged [(0, [1, 2, 3, 4, 5])]).1 1 [7, 8, 9]).2.countP
      Event.is_sync = 1 ∧
    (process_batch cfg_staged (run cfg_staged [(0, [1, 2, 3, 4, 5])]).1 1 [7, 8, 9]).2.countP
      Event.is_transfer = 4 ∧
    (process_batch cfg_staged (run cfg_staged [(0, [1, 2, 3, 4, 5])]).1 1 [7, 8, 9]).2.countP
      Event.is_launch = 1 ∧
    (process_batch cfg_staged (run cfg_staged [(0, [1, 2, 3, 4, 5])]).1 1 [7, 8, 9]).2.countP
      Event.is_merge = 0 ∧
    Event.sketchUpdate cfg_staged.num_device_threads 2 ∈
      (process_batch cfg_staged (run cfg_staged [(0, [1, 2, 3, 4, 5])]).1 1 [7, 8, 9]).2 ∧
    Event.copy_edgeUpdates 0 8 ([1, 2, 3, 4, 5] ++ [7, 8, 9]) ∈
      (process_batch cfg_staged (run cfg_staged [(0, [1, 2, 3, 4, 5])]).1 1 [7, 8, 9]).2 ∧
    (process_batch cfg_staged (run cfg_staged [(0, [1, 2, 3, 4, 5]), (1, [7, 8, 9])]).1 2 [4]).2
      = []) :=
  ⟨rfl, rfl, rfl, scenario_swap_on_second_batch cfg_staged rfl [1, 2, 3, 4, 5] [7, 8, 9] rfl rfl
    2 [4]⟩

/-- C6: one `process_batch(src, dst, count)` call, up to and including
`batch_count++`, writes `dst[0..count)` to `h_edgeUpdates[o..o+count)`, records
size, source and start offset `o - b * num_batch_per_buffer * batch_size` in
metadata slot `b * num_batch_per_buffer + k`, advances the offset to `o + count`
and `batch_count` to `k + 1`, and leaves every other cell and field as it was; the
state returned by `process_batch` is this one, passed through the reset block when
a swap is triggered.  In every state reached from construction the offset is not
below the base of the half, and the start offset recorded for slot `k` is the sum
of the sizes recorded in slots `0..k-1` of the same half. -/
theorem batch_assembler_postcondition (cfg : Config) (s : State) (src_vertex : Nat)
    (dst_vertices : List Nat) (bs : List Batch) :
    (∀ k, k < dst_vertices.length → dst_vertices[k]? =
      some ((append_batch cfg s src_vertex dst_vertices).h_edgeUpdates (s.batch_offset + k))) ∧
    (∀ j, j ∉ edge_write_indices s dst_vertices.length →
      (append_batch cfg s src_vertex dst_vertices).h_edgeUpdates j = s.h_edgeUpdates j) ∧
    (append_batch cfg s src_vertex dst_vertices).h_update_sizes
      (s.buffer_id * cfg.num_batch_per_buffer + s.batch_count) = dst_vertices.length ∧
    (append_batch cfg s src_vertex dst_vertices).h_update_src
      (s.buffer_id * cfg.num_batch_per_buffer + s.batch_count) = src_vertex ∧
    (append_batch cfg s src_vertex dst_vertices).h_update_start_index
      (s.buffer_id * cfg.num_batch_per_buffer + s.batch_count) =
        s.batch_offset - s.buffer_id * cfg.num_batch_per_buffer * cfg.batch_size ∧
    (∀ j, j ≠ s.buffer_id * cfg.num_batch_per_buffer + s.batch_count →
      (append_batch cfg s src_vertex dst_vertices).h_update_sizes j = s.h_update_sizes j ∧
      (append_batch cfg s src_vertex dst_vertices).h_update_src j = s.h_update_src j ∧
      (append_batch cfg s src_vertex dst_vertices).h_update_start_index j =
        s.h_update_start_index j) ∧
    (append_batch cfg s src_vertex dst_vertices).batch_offset =
      s.batch_offset + dst_vertices.length ∧
    (append_batch cfg s src_vertex dst_vertices).batch_count = s.batch_count + 1 ∧
    (append_batch cfg s src_vertex dst_vertices).buffer_id = s.buffer_id ∧
    (append_batch cfg s src_vertex dst_vertices).first_buffer = s.first_buffer ∧
    (process_batch cfg s src_vertex dst_vertices).1 =
      (if s.batch_count + 1 = cfg.num_batch_per_buffer then
        (if cfg.cudaUVM_enabled then reset_UVM cfg (append_batch cfg s src_vertex dst_vertices)
         else reset_default cfg (append_batch cfg s src_vertex dst_vertices))
       else append_batch cfg s src_vertex dst_vertices) ∧
    (run cfg bs).1.buffer_id * cfg.num_batch_per_buffer * cfg.batch_size ≤
      (run cfg bs).1.batch_offset ∧
    (append_batch cfg (run cfg bs).1 src_vertex dst_vertices).h_update_start_index
      ((run cfg bs).1.buffer_id * cfg.num_batch_per_buffer + (run cfg bs).1.batch_count) =
      ((List.range (run cfg bs).1.batch_count).map (fun j =>
        (append_batch cfg (run cfg bs).1 src_vertex dst_vertices).h_update_sizes
          ((run cfg bs).1.buffer_id * cfg.num_batch_per_buffer + j))).sum := by
  have hreach : offset_matches_sizes cfg (run cfg bs).1 :=
    offset_matches_sizes_run_from cfg bs construct (offset_matches_sizes_construct cfg)
  unfold offset_matches_sizes start_index start_batch_id at hreach
  refine ⟨?_, ?_, ?_, ?_, ?_, ?_, rfl, rfl, rfl, rfl, ?_, ?_, ?_⟩
  · intro k hk
    exact fill_edges_at dst_vertices s.h_edgeUpdates s.batch_offset k hk
  · intro j hj
    simp only [edge_write_indices, List.mem_range'_1, not_and, not_lt] at hj
    show fill_edges s.h_edgeUpdates s.batch_offset dst_vertices j = s.h_edgeUpdates j
    by_cases hlt : j < s.batch_offset
    · exact fill_edges_of_lt _ _ _ _ hlt
    · exact fill_edges_of_ge _ _ _ _ (hj (by omega))
  · simp [append_batch, start_batch_id]
  · simp [append_batch, start_batch_id]
  · simp [append_batch, start_batch_id, start_index]
  · intro j hj
    simp [append_batch, start_batch_id, Function.update_noteq hj]
  · by_cases hc : s.batch_count + 1 = cfg.num_batch_per_buffer
    · cases hu : cfg.cudaUVM_enabled
      · rw [process_batch_default_of_eq cfg s _ _ hu hc]
        simp [hc]
      · rw [process_batch_UVM_of_eq cfg s _ _ hu hc]
        simp [hc]
    · rw [process_batch_of_ne cfg s _ _ hc]
      simp [hc]
  · omega
  · have hsum : (List.range (run cfg bs).1.batch_count).map (fun j =>
        (append_batch cfg (run cfg bs).1 src_vertex dst_vertices).h_update_sizes
          ((run cfg bs).1.buffer_id * cfg.num_batch_per_buffer + j)) =
        (List.range (run cfg bs).1.batch_count).map (fun j =>
          (run cfg bs).1.h_update_sizes
            ((run cfg bs).1.buffer_id * cfg.num_batch_per_buffer + j)) := by
      apply List.map_congr_left
      intro j hj
      have := List.mem_range.1 hj
      simp only [append_batch, start_batch_id]
      rw [Function.update_noteq (by omega)]
    rw [hsum]
    simp only [append_batch, start_batch_id, start_index, Function.update_same]
    omega

/-- C7: with at least one batch per half and every submitted batch no longer than
`batch_size`, in every state reached by `process_batch` calls the running offset is
not below the base of the current half, the filled length of the current half is
at most `num_batch_per_buffer * batch_size`, and the next call
writes `h_edgeUpdates` only at indices below `2 * num_batch_per_buffer * batch_size`
and the metadata arrays only at an index below `2 * num_batch_per_buffer`. -/
theorem capacity_bound (cfg : Config) (h1 : 1 ≤ cfg.num_batch_per_buffer) (bs : List Batch)
    (hbs : ∀ b ∈ bs, b.2.length ≤ cfg.batch_size) (dst_vertices : List Nat)
    (hd : dst_vertices.length ≤ cfg.batch_size) :
    (run cfg bs).1.buffer_id * cfg.num_batch_per_buffer * cfg.batch_size ≤
      (run cfg bs).1.batch_offset ∧
    (run cfg bs).1.batch_offset -
        (run cfg bs).1.buffer_id * cfg.num_batch_per_buffer * cfg.batch_size ≤
      cfg.num_batch_per_buffer * cfg.batch_size ∧
    (∀ i ∈ edge_write_indices (run cfg bs).1 dst_vertices.length,
      i < 2 * cfg.num_batch_per_buffer * cfg.batch_size) ∧
    meta_write_index cfg (run cfg bs).1 < 2 * cfg.num_batch_per_buffer := by
  have hw : within_capacity cfg (run cfg bs).1 :=
    within_capacity_run_from cfg bs construct hbs (within_capacity_construct cfg h1)
  have hend := half_end_le cfg _ hw
  obtain ⟨hb, hk, hlo, hhi⟩ := hw
  have hkb : (run cfg bs).1.batch_count * cfg.batch_size ≤
      cfg.num_batch_per_buffer * cfg.batch_size := Nat.mul_le_mul_right _ (by omega)
  rw [Nat.add_mul, Nat.one_mul] at hend
  unfold start_index at hlo hhi hend
  refine ⟨hlo, by omega, ?_, ?_⟩
  · intro i hi
    simp only [edge_write_indices, List.mem_range'_1] at hi
    omega
  · unfold meta_write_index
    have hb1 : (run cfg bs).1.buffer_id * cfg.num_batch_per_buffer ≤
        1 * cfg.num_batch_per_buffer := Nat.mul_le_mul_right _ hb
    omega

/-- C7 (witness): the staged configuration after the batches
`(0, [1, 2, 3, 4, 5])`, `(1, [7, 8, 9])`, `(2, [4])`, with next batch `[6, 6]`. -/
theorem capacity_bound_witness :
    (run cfg_staged [(0, [1, 2, 3, 4, 5]), (1, [7, 8, 9]), (2, [4])]).1.buffer_id *
        cfg_staged.num_batch_per_buffer * cfg_staged.batch_size ≤
      (run cfg_staged [(0, [1, 2, 3, 4, 5]), (1, [7, 8, 9]), (2, [4])]).1.batch_offset ∧
    (run cfg_staged [(0, [1, 2, 3, 4, 5]), (1, [7, 8, 9]), (2, [4])]).1.batch_offset -
        (run cfg_staged [(0, [1, 2, 3, 4, 5]), (1, [7, 8, 9]), (2, [4])]).1.buffer_id *
          cfg_staged.num_batch_per_buffer * cfg_staged.batch_size ≤
      cfg_staged.num_batch_per_buffer * cfg_staged.batch_size ∧
    (∀ i ∈ edge_write_indices
        (run cfg_staged [(0, [1, 2, 3, 4, 5]), (1, [7, 8, 9]), (2, [4])]).1 [6, 6].length,
      i < 2 * cfg_staged.num_batch_per_buffer * cfg_staged.batch_size) ∧
    meta_write_index cfg_staged
        (run cfg_staged [(0, [1, 2, 3, 4, 5]), (1, [7, 8, 9]), (2, [4])]).1 <
      2 * cfg_staged.num_batch_per_buffer :=
  capacity_bound cfg_staged (by decide) [(0, [1, 2, 3, 4, 5]), (1, [7, 8, 9]), (2, [4])]
    (by decide) [6, 6] (by decide)

/-- C8 (counterexample): with a 32-bit `node_id_t`, `num_nodes = 2 ^ 31` and local
vertex 5, the instances with `graph_id = 0` and `graph_id = 2` compute the same
global index, because the product `graph_id * num_nodes` wraps; likewise with a
64-bit `node_id_t` and `num_nodes = 2 ^ 63`. -/
theorem global_index_collision :
    (0 : Int) ≠ 2 ∧
    1 ≤ (cfg_large 32 0).num_nodes ∧ 5 < (cfg_large 32 0).num_nodes ∧
    global_index (cfg_large 32 0) 5 = global_index (cfg_large 32 2) 5 ∧
    1 ≤ (cfg_large 64 0).num_nodes ∧ 5 < (cfg_large 64 0).num_nodes ∧
    global_index (cfg_large 64 0) 5 = global_index (cfg_large 64 2) 5 := by
  decide

/-- C8 (amended): for two instances over the same `num_nodes` whose non-negative
`graph_id`s differ, if each instance's whole
index range fits the type, `(graph_id + 1) * num_nodes ≤ 2 ^ node_bits`, then the
global index is the exact value `graph_id * num_nodes + src` and the index of any
local vertex of one instance differs from the index of any local vertex of the
other: the two ranges are disjoint. -/
theorem global_index_disjoint_without_wrap (c1 c2 : Config)
    (hn : c1.num_nodes = c2.num_nodes)
    (hg1 : 0 ≤ c1.graph_id) (hg2 : 0 ≤ c2.graph_id) (hne : c1.graph_id ≠ c2.graph_id)
    (hfit1 : (c1.graph_id.toNat + 1) * c1.num_nodes ≤ 2 ^ c1.node_bits)
    (hfit2 : (c2.graph_id.toNat + 1) * c2.num_nodes ≤ 2 ^ c2.node_bits)
    (src1 src2 : Nat) (hs1 : src1 < c1.num_nodes) (hs2 : src2 < c2.num_nodes) :
    global_index c1 src1 = c1.graph_id.toNat * c1.num_nodes + src1 ∧
    global_index c2 src2 = c2.graph_id.toNat * c2.num_nodes + src2 ∧
    global_index c1 src1 ≠ global_index c2 src2 := by
  have e1 := global_index_of_fit c1 src1 hg1 hfit1 hs1
  have e2 := global_index_of_fit c2 src2 hg2 hfit2 hs2
  refine ⟨e1, e2, ?_⟩
  rw [e1, e2, hn]
  have hne2 : c1.graph_id.toNat ≠ c2.graph_id.toNat := by
    intro h
    apply hne
    rw [← Int.toNat_of_nonneg hg1, ← Int.toNat_of_nonneg hg2, h]
  rw [hn] at hs1
  intro heq
  rcases Nat.lt_or_gt_of_ne hne2 with hlt | hgt
  · have : (c1.graph_id.toNat + 1) * c2.num_nodes ≤ c2.graph_id.toNat * c2.num_nodes :=
      Nat.mul_le_mul_right _ hlt
    rw [Nat.add_mul, Nat.one_mul] at this
    omega
  · have : (c2.graph_id.toNat + 1) * c2.num_nodes ≤ c1.graph_id.toNat * c2.num_nodes :=
      Nat.mul_le_mul_right _ hgt
    rw [Nat.add_mul, Nat.one_mul] at this
    omega

/-- C8 (witness): four vertices, 32-bit indices, graph identifiers 0 and 1, local
vertices 3 and 0. -/
theorem global_index_disjoint_without_wrap_witness :
    global_index (cfg_graph 0) 3 = (cfg_graph 0).graph_id.toNat * (cfg_graph 0).num_nodes + 3 ∧
    global_index (cfg_graph 1) 0 = (cfg_graph 1).graph_id.toNat * (cfg_graph 1).num_nodes + 0 ∧
    global_index (cfg_graph 0) 3 ≠ global_index (cfg_graph 1) 0 :=
  global_index_disjoint_without_wrap (cfg_graph 0) (cfg_graph 1) rfl
    (by decide) (by decide) (by decide) (by decide) (by decide) 3 0 (by decide) (by decide)

/-- C9 (counterexample): unified mode, two batches per half, three batches and
then `flush_buffers`.  The flush issues its copies and its launch directly after
the launch of the swap, with no drain-wait in between. -/
theorem unified_flush_launch_without_drain_wait :
    drained_before_launch false
      (stream_trace cfg_uvm [(0, [1]), (1, [2]), (2, [3])]) = false := by
  decide

/-- C9 (amended): in every trace of `process_batch` calls on a fresh instance, in
either mode, each host-to-device copy and each kernel launch comes after a
drain-wait issued later than the previous launch.  In staged mode this also holds
for the trace extended by `flush_buffers`; in unified mode `flush_buffers` issues
no drain-wait at all. -/
theorem launches_follow_drain_wait (cfg : Config) (bs : List Batch) :
    drained_before_launch false (run cfg bs).2 = true ∧
    (if cfg.cudaUVM_enabled then
      ∀ e ∈ (flush_buffers cfg (run cfg bs).1).2, e.is_sync = false
     else drained_before_launch false (stream_trace cfg bs) = true) := by
  have hrun : drained_before_launch false (run cfg bs).2 = true :=
    drained_run_from cfg bs construct false
  refine ⟨hrun, ?_⟩
  cases hu : cfg.cudaUVM_enabled
  · simp only [Bool.false_eq_true, if_false]
    unfold stream_trace
    rw [drained_append, hrun, Bool.true_and]
    exact drained_flush_default cfg hu _ _
  · simp only [if_true]
    intro e he
    exact (unified_flush_events cfg hu _ e he).2.2

/-- C10: in unified mode no `process_batch` or `flush_buffers` call, from any state,
emits a merge or a delta copy-back, and so no trace of `process_batch` calls
followed by `flush_buffers` holds one.  `flush_buffers` never emits a stream
synchronisation; it emits nothing exactly when `batch_count = 0`, and otherwise
exactly five events: the four host-to-device copies followed by one kernel launch.
When the `int` locals of `flush_buffers_UVM` hold their values, the copies are those
of the filling half (its `batch_offset - base` update elements from its base, and
its `batch_count` metadata slots) and the launch is over `batch_count` batches. -/
theorem unified_never_merges (cfg : Config) (hu : cfg.cudaUVM_enabled = true) (s : State)
    (src_vertex : Nat) (dst_vertices : List Nat) (bs : List Batch) :
    (∀ e ∈ (process_batch cfg s src_vertex dst_vertices).2,
      e.is_merge = false ∧ e.is_copy_back = false) ∧
    (∀ e ∈ (flush_buffers cfg s).2,
      e.is_merge = false ∧ e.is_copy_back = false ∧ e.is_sync = false) ∧
    (∀ e ∈ stream_trace cfg bs, e.is_merge = false ∧ e.is_copy_back = false) ∧
    ((flush_buffers cfg s).2 = [] ↔ s.batch_count = 0) ∧
    (s.batch_count ≠ 0 →
      (flush_buffers cfg s).2.countP Event.is_transfer = 4 ∧
      (flush_buffers cfg s).2.countP Event.is_launch = 1 ∧
      (flush_buffers cfg s).2.length = 5 ∧
      (flush_buffers cfg s).2 = flush_transfer_buffers cfg s ++
        [Event.sketchUpdate cfg.num_device_threads (to_size_t (num_batches_left s))]) ∧
    (ints_fit cfg s →
      (flush_buffers cfg s).2 =
        (if s.batch_count = 0 then []
         else
          [ Event.copy_edgeUpdates (s.buffer_id * cfg.num_batch_per_buffer * cfg.batch_size)
              (s.batch_offset - s.buffer_id * cfg.num_batch_per_buffer * cfg.batch_size)
              (slice s.h_edgeUpdates (s.buffer_id * cfg.num_batch_per_buffer * cfg.batch_size)
                (s.batch_offset - s.buffer_id * cfg.num_batch_per_buffer * cfg.batch_size)),
            Event.copy_update_sizes (s.buffer_id * cfg.num_batch_per_buffer) s.batch_count
              (slice s.h_update_sizes (s.buffer_id * cfg.num_batch_per_buffer) s.batch_count),
            Event.copy_update_src (s.buffer_id * cfg.num_batch_per_buffer) s.batch_count
              (slice s.h_update_src (s.buffer_id * cfg.num_batch_per_buffer) s.batch_count),
            Event.copy_update_start_index (s.buffer_id * cfg.num_batch_per_buffer)
              s.batch_count
              (slice s.h_update_start_index (s.buffer_id * cfg.num_batch_per_buffer)
                s.batch_count),
            Event.sketchUpdate cfg.num_device_threads s.batch_count ])) := by
  refine ⟨fun e he => unified_process_batch_events cfg hu s _ _ e he,
    fun e he => unified_flush_events cfg hu s e he, ?_, ?_, ?_, ?_⟩
  · intro e he
    unfold stream_trace at he
    rcases List.mem_append.1 he with h | h
    · exact unified_run_from_events cfg hu bs construct e h
    · exact ⟨(unified_flush_events cfg hu _ e h).1, (unified_flush_events cfg hu _ e h).2.1⟩
  · refine ⟨fun h => ?_, fun hc => flush_UVM_of_zero cfg hu s hc⟩
    by_contra hc
    have := (flush_UVM_counts cfg hu s hc).2.2
    rw [h] at this
    cases this
  · intro hc
    obtain ⟨c1, c2, c3⟩ := flush_UVM_counts cfg hu s hc
    exact ⟨c1, c2, c3, flush_UVM_of_ne cfg hu s hc⟩
  · intro hfit
    rw [flush_UVM_of_fit cfg hu s hfit]
    split <;> rfl

/-- C10 (witness): the unified configuration, the state after one batch, a second
batch, and a three-batch stream. -/
theorem unified_never_merges_witness :
    (flush_buffers cfg_uvm (run cfg_uvm [(1, [2, 3])]).1).2 =
      [ Event.copy_edgeUpdates 0 2 [2, 3], Event.copy_update_sizes 0 1 [2],
        Event.copy_update_src 0 1 [1], Event.copy_update_start_index 0 1 [0],
        Event.sketchUpdate 8 1 ] :=
  ((unified_never_merges cfg_uvm rfl (run cfg_uvm [(1, [2, 3])]).1 0 [9]
    [(0, [1]), (1, [2]), (2, [3])]).2.2.2.2.2 (by unfold ints_fit; decide)).trans (by decide)

/-- C11: staged mode, `batch_count = 0`.  `flush_buffers` emits one drain-wait
followed by one merge pass over the other half, the half launched by the last swap:
`num_batch_per_buffer` calls of `apply_raw_buckets_update`, the `k`-th for the source
recorded in slot `k` of that half with the delta at bucket offset
`k * num_buckets`.  It emits no host-to-device copy, no kernel launch and no
copy-back. -/
theorem flush_with_no_pending_batch (cfg : Config) (hu : cfg.cudaUVM_enabled = false)
    (s : State) (hc : s.batch_count = 0) :
    (flush_buffers cfg s).2 = Event.synchronize ::
      (List.range cfg.num_batch_per_buffer).map (fun k =>
        Event.apply_raw_buckets_update
          (global_index cfg (s.h_update_src ((s.buffer_id ^^^ 1) * cfg.num_batch_per_buffer + k)))
          (k * cfg.num_buckets)) ∧
    (flush_buffers cfg s).2.countP Event.is_sync = 1 ∧
    (flush_buffers cfg s).2.countP Event.is_merge = cfg.num_batch_per_buffer ∧
    (flush_buffers cfg s).2.countP Event.is_transfer = 0 ∧
    (flush_buffers cfg s).2.countP Event.is_launch = 0 ∧
    (flush_buffers cfg s).2.countP Event.is_copy_back = 0 := by
  have hev := flush_default_of_zero cfg hu s hc
  refine ⟨hev, ?_, ?_, ?_, ?_, ?_⟩ <;> rw [hev, List.countP_cons]
  · rw [countP_sync_apply_delta_loop]; rfl
  · rw [countP_merge_apply_delta_loop]; rfl
  · rw [countP_transfer_apply_delta_loop]; rfl
  · rw [countP_launch_apply_delta_loop]; rfl
  · rw [countP_copy_back_apply_delta_loop]; rfl

/-- C11 (witness): the staged configuration after the two batches `(0, [1])` and
`(1, [2])`, which fill and launch the first half. -/
theorem flush_with_no_pending_batch_witness :
    (run cfg_staged [(0, [1]), (1, [2])]).1.batch_count = 0 ∧
    (flush_buffers cfg_staged (run cfg_staged [(0, [1]), (1, [2])]).1).2 =
      [Event.synchronize, Event.apply_raw_buckets_update 0 0,
        Event.apply_raw_buckets_update 1 3] :=
  ⟨by decide,
    (flush_with_no_pending_batch cfg_staged rfl (run cfg_staged [(0, [1]), (1, [2])]).1
      (by decide)).1.trans (by decide)⟩

/-- C13 (evaluation at the failing input): two batches per half, the single batch
`(1, [2, 3])` and then `flush_buffers`.  Both modes apply the contribution of that
batch to the sketch of vertex 1.  Staged mode in addition merges two delta slots
that no kernel has written into the sketch of vertex 0, which unified mode leaves
untouched: the sketch tables differ. -/
theorem mode_equivalence_evaluated_before_first_swap :
    final_table cfg_staged [(1, [2, 3])] 1 = [some (1, [2, 3])] ∧
    final_table cfg_uvm [(1, [2, 3])] 1 = [some (1, [2, 3])] ∧
    final_table cfg_staged [(1, [2, 3])] 0 = [none, none] ∧
    final_table cfg_uvm [(1, [2, 3])] 0 = [] := by
  decide

/-- C14 (evaluation at the failing input): staged mode, two batches per half, the
single batch `(1, [2, 3])` and then `flush_buffers`.  The trace starts with a
drain-wait and a merge of the delta at bucket offset 0 although no kernel launch and
no copy-back has been issued before; the scan of the trace fails. -/
theorem merge_before_any_copy_back :
    (stream_trace cfg_staged [(1, [2, 3])]).take 2 =
      [Event.synchronize, Event.apply_raw_buckets_update 0 0] ∧
    merges_after_copy_back cfg_staged 0 0 0 (stream_trace cfg_staged [(1, [2, 3])]) = false := by
  decide

/-- C15: staged mode, at least one batch per half.  Let the stream so far consist of
a whole number of halves `pre`, then the `num_batch_per_buffer` batches `prev` of one
more half, then `num_batch_per_buffer - 1` batches `cur`.  The next `process_batch`
call triggers a swap that is not the first one, and it emits a drain-wait, then
exactly `num_batch_per_buffer` calls of `apply_raw_buckets_update`, the `k`-th with
the global index of the source of the `k`-th batch of `prev` and the delta at bucket
offset `k * num_buckets`, then the copies, the launch and the copy-back for the
filling half.  The sources read are those of `prev`, so the batches `cur` and the
call itself have not overwritten the metadata of the previous half. -/
theorem merge_pass_at_swap (cfg : Config) (hu : cfg.cudaUVM_enabled = false)
    (h1 : 1 ≤ cfg.num_batch_per_buffer) (pre prev cur : List Batch) (b : Batch)
    (hpre : pre.length % cfg.num_batch_per_buffer = 0)
    (hprev : prev.length = cfg.num_batch_per_buffer)
    (hcur : cur.length + 1 = cfg.num_batch_per_buffer) :
    (process_batch cfg (run cfg (pre ++ prev ++ cur)).1 b.1 b.2).2 =
      [Event.synchronize] ++
      (List.range cfg.num_batch_per_buffer).map (fun k =>
        Event.apply_raw_buckets_update (global_index cfg ((prev.map Prod.fst).getD k 0))
          (k * cfg.num_buckets)) ++
      transfer_buffers cfg (append_batch cfg (run cfg (pre ++ prev ++ cur)).1 b.1 b.2)
        cfg.num_batch_per_buffer ++
      [Event.sketchUpdate cfg.num_device_threads cfg.num_batch_per_buffer,
        Event.copy_buckets_back (cfg.num_buckets * cfg.num_batch_per_buffer)] ∧
    (process_batch cfg (run cfg (pre ++ prev ++ cur)).1 b.1 b.2).2.countP Event.is_merge =
      cfg.num_batch_per_buffer := by
  have hm : pre.length = pre.length / cfg.num_batch_per_buffer * cfg.num_batch_per_buffer :=
    (Nat.div_mul_cancel (Nat.dvd_of_mod_eq_zero hpre)).symm
  obtain ⟨a1, a2⟩ := chunks_run cfg h1 _ pre construct hm (half_holds_construct cfg) (by decide)
  obtain ⟨b1, b2, b3, b4⟩ := full_chunk_run cfg h1 prev _ a1 a2 hprev
  obtain ⟨c1, c2, c3, c4, c5⟩ := no_swap_run cfg cur _ [] b1 (by simp; omega)
  have hstate : (run cfg (pre ++ prev ++ cur)).1 =
      (run_from cfg (run_from cfg (run_from cfg construct pre).1 prev).1 cur).1 := by
    unfold run
    rw [run_from_append, run_from_append]
  rw [hstate]
  have hcnt : (run_from cfg (run_from cfg (run_from cfg construct pre).1 prev).1 cur).1.batch_count
      + 1 = cfg.num_batch_per_buffer := by
    rw [c2.1]; simpa using hcur
  have hbid := c3.trans_le b2
  have hfirst := c4.trans (b4 hu)
  have hsrc := other_half_sources_append cfg _ prev b.1 b.2 hbid (by omega) (by omega)
    (c5 prev b2 (by omega) b3)
  rw [process_batch_default_of_eq cfg _ _ _ hu hcnt]
  have hloop : apply_delta_loop cfg
      (append_batch cfg
        (run_from cfg (run_from cfg (run_from cfg construct pre).1 prev).1 cur).1 b.1 b.2)
      (((append_batch cfg
        (run_from cfg (run_from cfg (run_from cfg construct pre).1 prev).1 cur).1 b.1
          b.2).buffer_id ^^^ 1) * cfg.num_batch_per_buffer) (batch_limit cfg) =
      (List.range cfg.num_batch_per_buffer).map (fun k =>
        Event.apply_raw_buckets_update (global_index cfg ((prev.map Prod.fst).getD k 0))
          (k * cfg.num_buckets)) := by
    unfold apply_delta_loop batch_limit
    apply List.map_congr_left
    intro k hk
    have hk1 : k < prev.length := by rw [hprev]; exact List.mem_range.1 hk
    have := hsrc k prev[k] (List.getElem?_eq_getElem hk1)
    rw [this]
    simp [List.getD, hk1]
  have hev : swap_events_default cfg
      (append_batch cfg
        (run_from cfg (run_from cfg (run_from cfg construct pre).1 prev).1 cur).1 b.1 b.2) =
      [Event.synchronize] ++
      (List.range cfg.num_batch_per_buffer).map (fun k =>
        Event.apply_raw_buckets_update (global_index cfg ((prev.map Prod.fst).getD k 0))
          (k * cfg.num_buckets)) ++
      transfer_buffers cfg (append_batch cfg
        (run_from cfg (run_from cfg (run_from cfg construct pre).1 prev).1 cur).1 b.1 b.2)
        cfg.num_batch_per_buffer ++
      [Event.sketchUpdate cfg.num_device_threads cfg.num_batch_per_buffer,
        Event.copy_buckets_back (cfg.num_buckets * cfg.num_batch_per_buffer)] := by
    have hf : (append_batch cfg
        (run_from cfg (run_from cfg (run_from cfg construct pre).1 prev).1 cur).1 b.1
          b.2).first_buffer = false := hfirst
    have hn : (append_batch cfg
        (run_from cfg (run_from cfg (run_from cfg construct pre).1 prev).1 cur).1 b.1
          b.2).batch_count = cfg.num_batch_per_buffer := hcnt
    unfold swap_events_default
    rw [hf, hn, hloop]
    simp
  refine ⟨hev, ?_⟩
  show (swap_events_default cfg _).countP Event.is_merge = _
  rw [hev]
  simp [List.countP_append, List.countP_cons, transfer_buffers, Event.is_merge,
    List.countP_map, Function.comp_def]

/-- C15 (witness): the staged configuration with two batches per half: first half
`(0, [1])`, `(1, [2])`, then `(2, [3])` and the swapping batch `(3, [4])`. -/
theorem merge_pass_at_swap_witness :
    (process_batch cfg_staged
      (run cfg_staged ([] ++ [(0, [1]), (1, [2])] ++ [(2, [3])])).1 3 [4]).2.countP
        Event.is_merge = 2 :=
  (merge_pass_at_swap cfg_staged rfl (by decide) [] [(0, [1]), (1, [2])] [(2, [3])] (3, [4])
    (by decide) (by decide) (by decide)).2

/-- C16: a `process_batch` call that triggers a swap emits exactly: one drain-wait;
in staged mode when `first_buffer` is false, the merge calls for the other half;
the copies of the filling half's update array and of its size, source and
start-offset slots; one kernel launch over the half's `batch_count` batches; in
staged mode one delta copy-back.  The events name the filling half as it is before
the reset block, and the returned state is the one the reset block leaves.  In
staged mode `first_buffer` is true in a reachable state exactly when no earlier
call has triggered a swap, so the merge calls are absent exactly at the first swap;
in unified mode merge and copy-back are absent. -/
theorem swap_step_order (cfg : Config) (s : State) (src_vertex : Nat) (dst_vertices : List Nat)
    (bs : List Batch) (hc : s.batch_count + 1 = cfg.num_batch_per_buffer) :
    (process_batch cfg s src_vertex dst_vertices).2 =
      [Event.synchronize] ++
      (if cfg.cudaUVM_enabled = true ∨ s.first_buffer = true then []
       else (List.range cfg.num_batch_per_buffer).map (fun k =>
        Event.apply_raw_buckets_update
          (global_index cfg ((append_batch cfg s src_vertex dst_vertices).h_update_src
            ((s.buffer_id ^^^ 1) * cfg.num_batch_per_buffer + k)))
          (k * cfg.num_buckets))) ++
      [ Event.copy_edgeUpdates (s.buffer_id * cfg.num_batch_per_buffer * cfg.batch_size)
          (s.batch_offset + dst_vertices.length -
            s.buffer_id * cfg.num_batch_per_buffer * cfg.batch_size)
          (slice (append_batch cfg s src_vertex dst_vertices).h_edgeUpdates
            (s.buffer_id * cfg.num_batch_per_buffer * cfg.batch_size)
            (s.batch_offset + dst_vertices.length -
              s.buffer_id * cfg.num_batch_per_buffer * cfg.batch_size)),
        Event.copy_update_sizes (s.buffer_id * cfg.num_batch_per_buffer) (s.batch_count + 1)
          (slice (append_batch cfg s src_vertex dst_vertices).h_update_sizes
            (s.buffer_id * cfg.num_batch_per_buffer) (s.batch_count + 1)),
        Event.copy_update_src (s.buffer_id * cfg.num_batch_per_buffer) (s.batch_count + 1)
          (slice (append_batch cfg s src_vertex dst_vertices).h_update_src
            (s.buffer_id * cfg.num_batch_per_buffer) (s.batch_count + 1)),
        Event.copy_update_start_index (s.buffer_id * cfg.num_batch_per_buffer)
          (s.batch_count + 1)
          (slice (append_batch cfg s src_vertex dst_vertices).h_update_start_index
            (s.buffer_id * cfg.num_batch_per_buffer) (s.batch_count + 1)),
        Event.sketchUpdate cfg.num_device_threads (s.batch_count + 1) ] ++
      (if cfg.cudaUVM_enabled = true then []
       else [Event.copy_buckets_back (cfg.num_buckets * cfg.num_batch_per_buffer)]) ∧
    (process_batch cfg s src_vertex dst_vertices).1 =
      (if cfg.cudaUVM_enabled = true then
        reset_UVM cfg (append_batch cfg s src_vertex dst_vertices)
       else reset_default cfg (append_batch cfg s src_vertex dst_vertices)) ∧
    (process_batch cfg s src_vertex dst_vertices).1.buffer_id = s.buffer_id ^^^ 1 ∧
    (cfg.cudaUVM_enabled = true ∨
      ((run cfg bs).1.first_buffer = true ↔ (run cfg bs).2 = [])) := by
  cases hu : cfg.cudaUVM_enabled
  · rw [process_batch_default_of_eq cfg s _ _ hu hc]
    refine ⟨?_, by simp, rfl, Or.inr ?_⟩
    · unfold swap_events_default
      cases hf : s.first_buffer
      · have hf2 : (append_batch cfg s src_vertex dst_vertices).first_buffer = false := hf
        rw [hf2]
        simp [apply_delta_loop, transfer_buffers, start_index, start_batch_id, batch_limit,
          append_batch]
      · have hf2 : (append_batch cfg s src_vertex dst_vertices).first_buffer = true := hf
        rw [hf2]
        simp [transfer_buffers, start_index, start_batch_id, append_batch]
    · have := first_buffer_run_from cfg hu bs construct [] (by simp [construct])
      simpa [run] using this
  · rw [process_batch_UVM_of_eq cfg s _ _ hu hc]
    refine ⟨?_, by simp, rfl, Or.inl rfl⟩
    simp [swap_events_UVM, transfer_buffers, start_index, start_batch_id, append_batch]

/-- C16 (witness): the staged configuration after `(0, [1])`; the batch `(1, [2])`
triggers the first swap. -/
theorem swap_step_order_witness :
    (process_batch cfg_staged (run cfg_staged [(0, [1])]).1 1 [2]).2 =
      [ Event.synchronize, Event.copy_edgeUpdates 0 2 [1, 2], Event.copy_update_sizes 0 2 [1, 1],
        Event.copy_update_src 0 2 [0, 1], Event.copy_update_start_index 0 2 [0, 1],
        Event.sketchUpdate 8 2, Event.copy_buckets_back 6 ] :=
  (swap_step_order cfg_staged (run cfg_staged [(0, [1])]).1 1 [2] [(0, [1])]
    (by decide)).1.trans (by decide)

/-- C17: a `process_batch` call that triggers a swap from filling half `b` (0 or 1)
returns a state with `batch_count = 0`, `buffer_id = 1 - b = b xor 1` and
`batch_offset = (1 - b) * num_batch_per_buffer * batch_size`; `first_buffer` is
false afterwards in staged mode and unchanged in unified mode; the four host arrays
are the ones left by the append, so no cell of either half is cleared: every update
cell outside the range just written and every metadata cell other than the slot
just written keeps its value. -/
theorem swap_postcondition (cfg : Config) (s : State) (src_vertex : Nat)
    (dst_vertices : List Nat) (hb : s.buffer_id ≤ 1)
    (hc : s.batch_count + 1 = cfg.num_batch_per_buffer) :
    (process_batch cfg s src_vertex dst_vertices).1.batch_count = 0 ∧
    (process_batch cfg s src_vertex dst_vertices).1.buffer_id = 1 - s.buffer_id ∧
    (process_batch cfg s src_vertex dst_vertices).1.buffer_id = s.buffer_id ^^^ 1 ∧
    (process_batch cfg s src_vertex dst_vertices).1.batch_offset =
      (1 - s.buffer_id) * cfg.num_batch_per_buffer * cfg.batch_size ∧
    (process_batch cfg s src_vertex dst_vertices).1.first_buffer =
      (cfg.cudaUVM_enabled && s.first_buffer) ∧
    (process_batch cfg s src_vertex dst_vertices).1.h_edgeUpdates =
      (append_batch cfg s src_vertex dst_vertices).h_edgeUpdates ∧
    (process_batch cfg s src_vertex dst_vertices).1.h_update_sizes =
      (append_batch cfg s src_vertex dst_vertices).h_update_sizes ∧
    (process_batch cfg s src_vertex dst_vertices).1.h_update_src =
      (append_batch cfg s src_vertex dst_vertices).h_update_src ∧
    (process_batch cfg s src_vertex dst_vertices).1.h_update_start_index =
      (append_batch cfg s src_vertex dst_vertices).h_update_start_index ∧
    (∀ j, j ∉ edge_write_indices s dst_vertices.length →
      (process_batch cfg s src_vertex dst_vertices).1.h_edgeUpdates j = s.h_edgeUpdates j) ∧
    (∀ j, j ≠ meta_write_index cfg s →
      (process_batch cfg s src_vertex dst_vertices).1.h_update_sizes j = s.h_update_sizes j ∧
      (process_batch cfg s src_vertex dst_vertices).1.h_update_src j = s.h_update_src j ∧
      (process_batch cfg s src_vertex dst_vertices).1.h_update_start_index j =
        s.h_update_start_index j) := by
  have hx := xor_one_eq_sub s.buffer_id hb
  have hedge : ∀ j, j ∉ edge_write_indices s dst_vertices.length →
      (append_batch cfg s src_vertex dst_vertices).h_edgeUpdates j = s.h_edgeUpdates j := by
    intro j hj
    simp only [edge_write_indices, List.mem_range'_1, not_and, not_lt] at hj
    show fill_edges s.h_edgeUpdates s.batch_offset dst_vertices j = s.h_edgeUpdates j
    by_cases hlt : j < s.batch_offset
    · exact fill_edges_of_lt _ _ _ _ hlt
    · exact fill_edges_of_ge _ _ _ _ (hj (by omega))
  have hmeta : ∀ j, j ≠ meta_write_index cfg s →
      (append_batch cfg s src_vertex dst_vertices).h_update_sizes j = s.h_update_sizes j ∧
      (append_batch cfg s src_vertex dst_vertices).h_update_src j = s.h_update_src j ∧
      (append_batch cfg s src_vertex dst_vertices).h_update_start_index j =
        s.h_update_start_index j := by
    intro j hj
    unfold meta_write_index at hj
    simp [append_batch, start_batch_id, Function.update_noteq hj]
  cases hu : cfg.cudaUVM_enabled
  · rw [process_batch_default_of_eq cfg s _ _ hu hc]
    refine ⟨rfl, ?_, rfl, ?_, rfl, rfl, rfl, rfl, rfl, hedge, hmeta⟩
    · exact hx
    · show (s.buffer_id ^^^ 1) * _ * _ = _
      rw [hx]
  · rw [process_batch_UVM_of_eq cfg s _ _ hu hc]
    refine ⟨rfl, ?_, rfl, ?_, ?_, rfl, rfl, rfl, rfl, hedge, hmeta⟩
    · exact hx
    · show (s.buffer_id ^^^ 1) * _ * _ = _
      rw [hx]
    · show s.first_buffer = (true && s.first_buffer)
      simp

/-- C17 (witness): the staged configuration after `(0, [1])`; the batch `(1, [2])`
triggers the swap from half 0. -/
theorem swap_postcondition_witness :
    (process_batch cfg_staged (run cfg_staged [(0, [1])]).1 1 [2]).1.batch_count = 0 ∧
    (process_batch cfg_staged (run cfg_staged [(0, [1])]).1 1 [2]).1.buffer_id = 1 ∧
    (process_batch cfg_staged (run cfg_staged [(0, [1])]).1 1 [2]).1.batch_offset = 10 ∧
    (process_batch cfg_staged (run cfg_staged [(0, [1])]).1 1 [2]).1.first_buffer = false :=
  ⟨(swap_postcondition cfg_staged (run cfg_staged [(0, [1])]).1 1 [2] (by decide)
      (by decide)).1,
    by decide, by decide, by decide⟩

/-- C18: with at least one batch per half, in the state reached from construction by
any sequence of `process_batch` calls, in either mode, `buffer_id` is 0 or 1,
`batch_count` is below `num_batch_per_buffer` and equals the number of batches
submitted since the last swap (or since construction), these batches are the tail of
the submitted sequence, and `batch_offset` is
`buffer_id * num_batch_per_buffer * batch_size` plus the sum of their sizes. -/
theorem state_invariant (cfg : Config) (h1 : 1 ≤ cfg.num_batch_per_buffer) (bs : List Batch) :
    ((run cfg bs).1.buffer_id = 0 ∨ (run cfg bs).1.buffer_id = 1) ∧
    (run cfg bs).1.batch_count < cfg.num_batch_per_buffer ∧
    (run cfg bs).1.batch_count = (pending cfg bs).length ∧
    pending cfg bs <:+ bs ∧
    (run cfg bs).1.batch_offset =
      (run cfg bs).1.buffer_id * cfg.num_batch_per_buffer * cfg.batch_size +
        ((pending cfg bs).map (fun b => b.2.length)).sum := by
  obtain ⟨i1, i2, i3, i4⟩ := pending_invariant cfg h1 bs construct [] (by decide)
    (show (0 : Nat) < cfg.num_batch_per_buffer by omega) (half_holds_construct cfg)
  exact ⟨by unfold run; omega, i2, i3.1, by simpa using i4, i3.2.1⟩

/-- C18 (witness): the staged configuration after three batches: one swap, then one
pending batch of one update in half 1. -/
theorem state_invariant_witness :
    (run cfg_staged [(0, [1, 2, 3, 4, 5]), (1, [7, 8, 9]), (2, [4])]).1.batch_count =
      (pending cfg_staged [(0, [1, 2, 3, 4, 5]), (1, [7, 8, 9]), (2, [4])]).length ∧
    pending cfg_staged [(0, [1, 2, 3, 4, 5]), (1, [7, 8, 9]), (2, [4])] = [(2, [4])] ∧
    (run cfg_staged [(0, [1, 2, 3, 4, 5]), (1, [7, 8, 9]), (2, [4])]).1.batch_offset = 11 :=
  ⟨(state_invariant cfg_staged (by decide)
      [(0, [1, 2, 3, 4, 5]), (1, [7, 8, 9]), (2, [4])]).2.2.1,
    by decide, by decide⟩

/-- C20: `flush_buffers` returns the host state it was given, in both modes:
`buffer_id`, `batch_count`, `batch_offset`, `first_buffer` and the four host arrays
are unchanged. -/
theorem flush_frame (cfg : Config) (s : State) :
    (flush_buffers cfg s).1 = s ∧
    (flush_buffers cfg s).1.buffer_id = s.buffer_id ∧
    (flush_buffers cfg s).1.batch_count = s.batch_count ∧
    (flush_buffers cfg s).1.batch_offset = s.batch_offset ∧
    (flush_buffers cfg s).1.first_buffer = s.first_buffer ∧
    (flush_buffers cfg s).1.h_edgeUpdates = s.h_edgeUpdates ∧
    (flush_buffers cfg s).1.h_update_sizes = s.h_update_sizes ∧
    (flush_buffers cfg s).1.h_update_src = s.h_update_src ∧
    (flush_buffers cfg s).1.h_update_start_index = s.h_update_start_index := by
  have h := flush_buffers_state cfg s
  rw [h]
  exact ⟨rfl, rfl, rfl, rfl, rfl, rfl, rfl, rfl, rfl⟩

end CudaStream
